import Mathlib

set_option autoImplicit false

/-!
Verification of the statement splitter and classifier of the
`sql-query-identifier` repository (`src/parser.js`), shallowly embedded.

The embedding mirrors the source:
* token and statement records are structures over `String`/`Int` options,
  matching the JavaScript objects (an absent property is `none`);
* the per-statement classifier `stateMachineStatementParser` becomes
  `addToken` over an explicit `ParserState`;
* the top-level splitter `parse` becomes `parseTokens`, driven by the list
  of tokens the lexical scanner would produce (the scanner itself,
  `./tokenizer`, is not part of the source tree; the splitter consumes one
  scanned token per loop iteration, so a run of the loop is exactly a
  traversal of the scanned token list);
* the source file contains an unresolved merge conflict in the block/END
  handling of `addToken`; this development uses the depth-tracked variant
  (the one that decrements `openBlocks` on `END` and only then allows
  termination, together with the whitespace early-return), which is the
  variant the surrounding declarations (`dialectsWithOpenBlocks`,
  `blockOpeners`) support.
JavaScript quirks are kept: `undefined`-valued fields are `none`,
`undefined - 1` (`NaN`) is modelled by `Option.map` so that `none` stays
`none` and never compares equal to `0`, and the `definer` field that holds
`undefined`, a counter, or `false` becomes the inductive `DefinerState`.
-/

/-- Token record: `{type, value, start, end}` from the source.  `type` and
`value` are the strings the scanner produces; `stop` embeds the `end`
property (a Lean keyword). -/
structure Token where
  type : String
  value : String
  start : Int
  stop : Int
  deriving DecidableEq, Repr

/-- The `definer` statement property: JavaScript `undefined` (never set),
a numeric counter, or `false` (clause finished). -/
inductive DefinerState where
  | unset : DefinerState
  | count (n : Int) : DefinerState
  | off : DefinerState
  deriving DecidableEq, Repr

/-- Statement record built by the classifier.  `stop` embeds the `end`
property.  Absent JavaScript properties are `none` / `false` / `.unset`. -/
structure Statement where
  start : Option Int := none
  stop : Option Int := none
  type : Option String := none
  executionType : Option String := none
  endStatement : Option String := none
  canEnd : Bool := false
  definer : DefinerState := .unset
  openBlocks : Option Int := none
  deriving DecidableEq, Repr

/-- `EXECUTION_TYPES` lookup table from the source. -/
def EXECUTION_TYPES : List (String × String) :=
  [("SELECT", "LISTING"),
   ("INSERT", "MODIFICATION"),
   ("DELETE", "MODIFICATION"),
   ("UPDATE", "MODIFICATION"),
   ("CREATE_DATABASE", "MODIFICATION"),
   ("CREATE_TABLE", "MODIFICATION"),
   ("CREATE_TRIGGER", "MODIFICATION"),
   ("CREATE_FUNCTION", "MODIFICATION"),
   ("DROP_DATABASE", "MODIFICATION"),
   ("DROP_TABLE", "MODIFICATION"),
   ("TRUNCATE", "MODIFICATION"),
   ("UNKNOWN", "UNKNOWN")]

/-- `EXECUTION_TYPES[statement.type] || 'UNKNOWN'`: indexing with an
undefined type or a type outside the table yields `'UNKNOWN'`. -/
def executionTypeFor (t : Option String) : String :=
  match t with
  | none => "UNKNOWN"
  | some s => (EXECUTION_TYPES.lookup s).getD "UNKNOWN"

/-- `value.toUpperCase()` as the parser uses it: ASCII uppercase of each
character (all compared keywords are ASCII).  Defined over the character
list so that it reduces definitionally. -/
def jsUpper (s : String) : String := ⟨s.data.map Char.toUpper⟩

def dialectsWithOpenBlocks : List String := ["psql"]

def blockOpeners : List String := ["BEGIN", "IF", "LOOP"]

def dialectsWithEnds : List String := ["sqlite", "mssql", "psql"]

def statementsWithEnds : List String := ["CREATE_TRIGGER", "CREATE_FUNCTION"]

/-- `list.includes(x)` where `x` may be `undefined` (an undefined statement
type is never in the list). -/
def optContains (l : List String) (t : Option String) : Bool :=
  match t with
  | some s => l.contains s
  | none => false

/-- An `acceptTokens` entry `{type, value}`. -/
structure AcceptToken where
  type : String
  value : String
  deriving DecidableEq, Repr

/-- The `validation` object of a step. -/
structure StepValidation where
  requireBefore : Option (List String) := none
  acceptTokens : List AcceptToken

/-- One classifier step.  The source's `preCanGoToNext`/`postCanGoToNext`
are constant functions in every statement parser, embedded as `Bool`s.
`requireBefore` mirrors JavaScript property access `step.requireBefore`:
the step literals only define `requireBefore` inside `validation`, so the
step-level property is absent (`none`) for every constructed step. -/
structure Step where
  preCanGoToNext : Bool
  requireBefore : Option (List String) := none
  validation : Option StepValidation := none
  add : Statement → Token → Statement
  postCanGoToNext : Bool

/-- The closure state of `stateMachineStatementParser`. -/
structure ParserState where
  statement : Statement
  steps : List Step
  currentStepIndex : Nat
  prevToken : Option Token
  isStrict : Bool
  dialect : String

/-- `isValidToken` from the source: filter `acceptTokens` on matching type
and (case-insensitively) matching value; `!accept.value` (a falsy string)
accepts any value. -/
def isValidToken (step : Step) (token : Token) : Bool :=
  match step.validation with
  | none => true
  | some v =>
    (v.acceptTokens.filter (fun accept =>
      token.type == accept.type
        && (accept.value == "" || jsUpper token.value == accept.value))).length > 0

/-- `hasRequiredBefore` from the source.  It reads `step.requireBefore`,
a property the step literals never define at the step level (it lives
inside `validation`), so the guard always passes for the parsers of this
program; the `prevToken` fallback mirrors `undefined` and is unreachable. -/
def hasRequiredBefore (p : ParserState) (step : Step) : Bool :=
  match step.requireBefore with
  | none => true
  | some l => l.contains ((p.prevToken.map Token.type).getD "undefined")

def requireBeforeMessage (step : Step) (token : Token) (idx : Nat) : String :=
  let reqs := String.intercalate " or " ((step.requireBefore).getD [])
  "Expected any of these tokens " ++ reqs ++ " before \"" ++ token.value
    ++ "\" (currentStep=" ++ toString idx ++ ")."

def invalidTokenMessage (step : Step) (token : Token) (idx : Nat) : String :=
  let accepts :=
    match step.validation with
    | none => []
    | some v => v.acceptTokens.map (fun a =>
        "(type=\"" ++ a.type ++ "\" value=\"" ++ a.value ++ "\")")
  "Expected any of these tokens " ++ String.intercalate " or " accepts
    ++ " instead of type=\"" ++ token.type ++ "\" value=\"" ++ token.value
    ++ "\" (currentStep=" ++ toString idx ++ ")."

/-- `statement.definer > 0` (false for `undefined` and for `false`). -/
def definerGtZero : DefinerState → Bool
  | .count n => n > 0
  | _ => false

/-- `statement.definer > 1`. -/
def definerGtOne : DefinerState → Bool
  | .count n => n > 1
  | _ => false

/-- Tail of `addToken` from the step-matching logic on: the
`if (statement.type)` early return, then the current step's validation,
mutation and execution-type recomputation. -/
def addTokenSteps (p : ParserState) (token : Token) : Except String ParserState :=
  if p.statement.type.isSome then
    .ok p
  else
    match p.steps[p.currentStepIndex]? with
    | none => .error "TypeError: currentStep is undefined"
    | some step0 =>
      let idx := if step0.preCanGoToNext then p.currentStepIndex + 1 else p.currentStepIndex
      match p.steps[idx]? with
      | none => .error "TypeError: currentStep is undefined"
      | some currentStep =>
        if !(hasRequiredBefore p currentStep) then
          .error (requireBeforeMessage currentStep token idx)
        else if !(isValidToken currentStep token) && p.isStrict then
          .error (invalidTokenMessage currentStep token idx)
        else
          let st := currentStep.add p.statement token
          let st2 := { st with executionType := some (executionTypeFor st.type) }
          let idx2 := if currentStep.postCanGoToNext then idx + 1 else idx
          .ok { p with statement := st2, currentStepIndex := idx2, prevToken := some token }

/-- The MySQL `DEFINER` counter block of `addToken` (`statement.definer > 0`),
then the step logic. -/
def addTokenDefiner (p : ParserState) (token : Token) : Except String ParserState :=
  if definerGtZero p.statement.definer then
    if p.statement.definer == .count 1
        && ((p.prevToken.map Token.type).getD "undefined") == "whitespace" then
      .ok { p with statement := { p.statement with definer := .count 2 },
                   prevToken := some token }
    else if definerGtOne p.statement.definer
        && ((p.prevToken.map Token.type).getD "undefined") != "whitespace" then
      .ok { p with prevToken := some token }
    else
      addTokenSteps { p with statement := { p.statement with definer := .off } } token
  else
    addTokenSteps p token

/-- Middle of `addToken`: whitespace early-return, Postgres `OR`/`REPLACE`
skipping, block-opener counting, MySQL `DEFINER` and `=` recognition. -/
def addTokenRest2 (p : ParserState) (token : Token) : Except String ParserState :=
  if token.type == "whitespace" then
    .ok { p with prevToken := some token }
  else if p.dialect == "psql" && ["OR", "REPLACE"].contains (jsUpper token.value) then
    .ok { p with prevToken := some token }
  else if dialectsWithOpenBlocks.contains p.dialect
      && blockOpeners.contains (jsUpper token.value) then
    .ok { p with statement :=
      { p.statement with openBlocks := p.statement.openBlocks.map (· + 1) } }
  else if p.dialect == "mysql" && jsUpper token.value == "DEFINER" then
    .ok { p with statement := { p.statement with definer := .count 0 },
                 prevToken := some token }
  else if p.statement.definer == .count 0 && token.value == "=" then
    .ok { p with statement := { p.statement with definer := .count 1 },
                 prevToken := some token }
  else
    addTokenDefiner p token

/-- The `END` handling of `addToken` (depth-tracked resolution of the
source's merge conflict): decrement `openBlocks` (`undefined--` is `NaN`,
modelled by `Option.map`), set `canEnd` and return when the dialect does
not track blocks or the count reached zero, otherwise fall through with
the decremented count. -/
def addTokenRest (p : ParserState) (token : Token) : Except String ParserState :=
  if dialectsWithEnds.contains p.dialect
      && optContains statementsWithEnds p.statement.type
      && jsUpper token.value == "END" then
    let st := { p.statement with openBlocks := p.statement.openBlocks.map (· - 1) }
    if !(dialectsWithOpenBlocks.contains p.dialect) || st.openBlocks == some 0 then
      .ok { p with statement := { st with canEnd := true } }
    else
      addTokenRest2 { p with statement := st } token
  else
    addTokenRest2 p token

/-- `addToken` of `stateMachineStatementParser`: reject a terminated
statement, terminate on a semicolon unless a dialect suppression applies,
then the `END`/skip/definer/step pipeline. -/
def addToken (p : ParserState) (token : Token) : Except String ParserState :=
  if p.statement.endStatement.isSome then
    .error "This statement has already got to the end."
  else if token.type == "semicolon"
      && !(dialectsWithEnds.contains p.dialect
            && optContains statementsWithEnds p.statement.type
            && !p.statement.canEnd)
      && !(p.dialect == "psql" && p.statement.type == some "CREATE_FUNCTION"
            && !p.statement.canEnd) then
    .ok { p with statement := { p.statement with endStatement := some ";" } }
  else
    addTokenRest p token

/-- Steps of `createSelectStatementParser`. -/
def selectSteps : List Step :=
  [{ preCanGoToNext := false,
     validation := some { acceptTokens := [{ type := "keyword", value := "SELECT" }] },
     add := fun st token => { st with type := some "SELECT", start := some token.start },
     postCanGoToNext := true }]

/-- Steps of `createInsertStatementParser`. -/
def insertSteps : List Step :=
  [{ preCanGoToNext := false,
     validation := some { acceptTokens := [{ type := "keyword", value := "INSERT" }] },
     add := fun st token => { st with type := some "INSERT", start := some token.start },
     postCanGoToNext := true }]

/-- Steps of `createUpdateStatementParser`. -/
def updateSteps : List Step :=
  [{ preCanGoToNext := false,
     validation := some { acceptTokens := [{ type := "keyword", value := "UPDATE" }] },
     add := fun st token => { st with type := some "UPDATE", start := some token.start },
     postCanGoToNext := true }]

/-- Steps of `createDeleteStatementParser`. -/
def deleteSteps : List Step :=
  [{ preCanGoToNext := false,
     validation := some { acceptTokens := [{ type := "keyword", value := "DELETE" }] },
     add := fun st token => { st with type := some "DELETE", start := some token.start },
     postCanGoToNext := true }]

/-- Steps of `createTruncateStatementParser`. -/
def truncateSteps : List Step :=
  [{ preCanGoToNext := false,
     validation := some { acceptTokens := [{ type := "keyword", value := "TRUNCATE" }] },
     add := fun st token => { st with type := some "TRUNCATE", start := some token.start },
     postCanGoToNext := true }]

/-- Steps of `createCreateStatementParser`: `CREATE`, then the object kind
(the second step's `requireBefore` sits inside `validation`). -/
def createSteps : List Step :=
  [{ preCanGoToNext := false,
     validation := some { acceptTokens := [{ type := "keyword", value := "CREATE" }] },
     add := fun st token => { st with start := some token.start },
     postCanGoToNext := true },
   { preCanGoToNext := false,
     validation := some
       { requireBefore := some ["whitespace"],
         acceptTokens :=
           [{ type := "keyword", value := "TABLE" },
            { type := "keyword", value := "DATABASE" },
            { type := "keyword", value := "TRIGGER" },
            { type := "keyword", value := "FUNCTION" }] },
     add := fun st token => { st with type := some ("CREATE_" ++ jsUpper token.value) },
     postCanGoToNext := true }]

/-- Steps of `createDropStatementParser`. -/
def dropSteps : List Step :=
  [{ preCanGoToNext := false,
     validation := some { acceptTokens := [{ type := "keyword", value := "DROP" }] },
     add := fun st token => { st with start := some token.start },
     postCanGoToNext := true },
   { preCanGoToNext := false,
     validation := some
       { requireBefore := some ["whitespace"],
         acceptTokens :=
           [{ type := "keyword", value := "TABLE" },
            { type := "keyword", value := "DATABASE" }] },
     add := fun st token => { st with type := some ("DROP_" ++ jsUpper token.value) },
     postCanGoToNext := true }]

/-- Steps of `createUnknownStatementParser`: no validation, accept anything. -/
def unknownSteps : List Step :=
  [{ preCanGoToNext := false,
     validation := none,
     add := fun st token => { st with type := some "UNKNOWN", start := some token.start },
     postCanGoToNext := true }]

/-- `stateMachineStatementParser` initial statement: `openBlocks` starts at
`0` exactly for dialects that track open blocks. -/
def initStatement (dialect : String) : Statement :=
  if dialectsWithOpenBlocks.contains dialect then { openBlocks := some 0 } else {}

/-- Fresh classifier closure for a given step table. -/
def initParser (steps : List Step) (isStrict : Bool) (dialect : String) : ParserState :=
  { statement := initStatement dialect, steps := steps, currentStepIndex := 0,
    prevToken := none, isStrict := isStrict, dialect := dialect }

/-- Fallback of `createStatementParserByToken`: the unknown parser is only
chosen in non-strict mode for a token of type `unknown`; everything else
throws.  The source calls `createUnknownStatementParser(options.isStrict)`
with a bare boolean, whose destructured `isStrict` is `undefined` (falsy),
and never passes the dialect, which therefore defaults to `'generic'`. -/
def fallbackCreate (token : Token) (isStrict : Bool) : Except String ParserState :=
  if !isStrict && token.type == "unknown" then
    .ok (initParser unknownSteps false "generic")
  else
    .error ("Invalid statement parser \"" ++ token.value ++ "\"")

/-- `createStatementParserByToken`.  Only `createCreateStatementParser`
forwards the dialect; every other factory destructures `{ isStrict }`
alone, so `stateMachineStatementParser` falls back to its default dialect
`'generic'` for them. -/
def createStatementParserByToken (token : Token) (isStrict : Bool) (dialect : String) :
    Except String ParserState :=
  if token.type == "keyword" then
    match jsUpper token.value with
    | "SELECT" => .ok (initParser selectSteps isStrict "generic")
    | "CREATE" => .ok (initParser createSteps isStrict dialect)
    | "DROP" => .ok (initParser dropSteps isStrict "generic")
    | "INSERT" => .ok (initParser insertSteps isStrict "generic")
    | "UPDATE" => .ok (initParser updateSteps isStrict "generic")
    | "DELETE" => .ok (initParser deleteSteps isStrict "generic")
    | "TRUNCATE" => .ok (initParser truncateSteps isStrict "generic")
    | _ => fallbackCreate token isStrict
  else
    fallbackCreate token isStrict

def ignoreOutsideBlankTokens : List String :=
  ["whitespace", "comment-inline", "comment-block"]

/-- Result record of `parse` (`topLevelStatement`); `stop` embeds `end`,
which the source sets to `input.length - 1`. -/
structure ParseResult where
  type : String
  start : Int
  stop : Int
  body : List Statement
  tokens : List Token
  deriving DecidableEq, Repr

/-- The scanning loop of `parse`, one iteration per scanned token: outside
a statement blank tokens are skipped, any other token selects a classifier
and is fed to it; after feeding, a terminated statement gets its `end`
fixed to the token's `end` and is sealed into the body. -/
def runTokens (isStrict : Bool) (dialect : String) :
    List Token → Option ParserState → List Statement →
    Except String (List Statement × Option ParserState)
  | [], sp, body => .ok (body, sp)
  | token :: rest, sp, body =>
    let created : Except String (Option ParserState) :=
      match sp with
      | some p => .ok (some p)
      | none =>
        if ignoreOutsideBlankTokens.contains token.type then .ok none
        else (createStatementParserByToken token isStrict dialect).map some
    match created with
    | .error e => .error e
    | .ok none => runTokens isStrict dialect rest none body
    | .ok (some p) =>
      match addToken p token with
      | .error e => .error e
      | .ok p2 =>
        if p2.statement.endStatement.isSome then
          runTokens isStrict dialect rest none
            (body ++ [{ p2.statement with stop := some token.stop }])
        else
          runTokens isStrict dialect rest (some p2) body

/-- `parse`, driven by the token list the scanner yields for the input.
`inputEnd` is `input.length - 1` (the source's `topLevelStatement.end`).
After the loop, a still-active unterminated statement is sealed at
`inputEnd`.  Every scanned token is pushed onto the flat token list in
both branches of the loop, so the result's `tokens` is the scanned list
itself. -/
def parseTokens (toks : List Token) (isStrict : Bool) (dialect : String)
    (inputEnd : Int) : Except String ParseResult :=
  match runTokens isStrict dialect toks none [] with
  | .error e => .error e
  | .ok (body, sp) =>
    let finalBody :=
      match sp with
      | some p =>
        if p.statement.endStatement.isNone then
          body ++ [{ p.statement with stop := some inputEnd }]
        else body
      | none => body
    .ok { type := "QUERY", start := 0, stop := inputEnd, body := finalBody, tokens := toks }

/-! ## Predicates about classifier step tables and statements -/

/-- Execution type is the table lookup of the statement type (the invariant
the classifier maintains after its first mutation). -/
def PExec (s : Statement) : Prop :=
  s.executionType = some (executionTypeFor s.type)

/-- Every mutation of the step table either leaves `start` alone or sets it
to the consumed token's `start` (true of all step tables of the source). -/
def StepsOK (steps : List Step) : Prop :=
  ∀ step ∈ steps, ∀ st tok,
    (step.add st tok).start = st.start ∨ (step.add st tok).start = some tok.start

/-- No mutation of the step table touches `canEnd` (true of all step tables
of the source; `canEnd` is only assigned in the dialect `END` handling). -/
def StepsPreserveCanEnd (steps : List Step) : Prop :=
  ∀ step ∈ steps, ∀ st tok, (step.add st tok).canEnd = st.canEnd

/-- A statement change that keeps `start`, `type`, `executionType` and
`canEnd` (everything the non-step branches of `addToken` do). -/
def MinorChange (s s2 : Statement) : Prop :=
  s2.start = s.start ∧ s2.type = s.type ∧ s2.executionType = s.executionType
    ∧ s2.canEnd = s.canEnd

/-- The outcome of the step-mutation branch of `addToken`: some step of the
table was applied to a statement that agrees with the current one on
`start` and `canEnd`, and the execution type was recomputed. -/
def StepOutcome (p : ParserState) (t : Token) (s2 : Statement) : Prop :=
  ∃ step ∈ p.steps, ∃ base : Statement,
    base.start = p.statement.start ∧ base.canEnd = p.statement.canEnd ∧
    s2 = { step.add base t with
           executionType := some (executionTypeFor (step.add base t).type) }

/-- Scanned token order: one token ends strictly before the next starts
(the scanner advances `position` past every token it returns). -/
def TokLt (a b : Token) : Prop := a.stop < b.start

/-- Statement order: one statement's `end` lies strictly before the next
statement's `start`. -/
def StmtLt (s1 s2 : Statement) : Prop :=
  ∀ e a, s1.stop = some e → s2.start = some a → e < a

/-- Invariant of the sealed statements: each is consistent with the
execution-type table and spans `[a, b]` with `a ≤ b`, `b` at most `lb` (the
end of the last consumed token) and at most `inputEnd`; and they are
pairwise ordered. -/
def BodyInv (inputEnd : Int) (body : List Statement) (lb : Int) : Prop :=
  (∀ st ∈ body, PExec st ∧ ∃ a b, st.start = some a ∧ st.stop = some b ∧
      a ≤ b ∧ b ≤ lb ∧ b ≤ inputEnd) ∧
  body.Pairwise StmtLt

/-- Invariant of the active classifier (when one exists): its step table is
well behaved, its statement is consistent with the execution-type table,
and its `start` is set, bounded by `lb` and `inputEnd`, and beyond every
sealed statement. -/
def SpInv (inputEnd : Int) (sp : Option ParserState) (body : List Statement)
    (lb : Int) : Prop :=
  ∀ p, sp = some p → StepsOK p.steps ∧ PExec p.statement ∧
    ∃ s, p.statement.start = some s ∧ s ≤ lb ∧ s ≤ inputEnd ∧
      ∀ st ∈ body, ∀ e, st.stop = some e → e < s

/-- Two classifier states that agree on everything except the stored
dialect string. -/
def SameButDialect (q q2 : ParserState) : Prop :=
  q.statement = q2.statement ∧ q.steps = q2.steps ∧
  q.currentStepIndex = q2.currentStepIndex ∧ q.prevToken = q2.prevToken ∧
  q.isStrict = q2.isStrict

/-- A dialect that matches none of the dialect-specific rules of the
classifier (true of `generic` and of every unrecognized dialect). -/
def DialectPlain (d : String) : Prop :=
  dialectsWithEnds.contains d = false ∧ (d == "psql") = false ∧
  dialectsWithOpenBlocks.contains d = false ∧ (d == "mysql") = false

/-- The part of a scanning-loop outcome that `parseTokens` observes: the
sealed statements and the active classifier's statement. -/
def stripOut (r : Except String (List Statement × Option ParserState)) :
    Except String (List Statement × Option Statement) :=
  match r with
  | .error e => .error e
  | .ok (b, sp) => .ok (b, sp.map ParserState.statement)

/-! ## Concrete tokens and states used by witnesses and counterexamples -/

def kwTok (v : String) (a b : Int) : Token :=
  { type := "keyword", value := v, start := a, stop := b }

def wsTok (a : Int) : Token :=
  { type := "whitespace", value := " ", start := a, stop := a }

def unkTok (v : String) (a b : Int) : Token :=
  { type := "unknown", value := v, start := a, stop := b }

def semiTok (a : Int) : Token :=
  { type := "semicolon", value := ";", start := a, stop := a }

def c9State : ParserState :=
  { statement := { endStatement := some ";" }, steps := selectSteps,
    currentStepIndex := 1, prevToken := none, isStrict := false, dialect := "generic" }

/-- A classifier state mid-way through a `sqlite` `CREATE TRIGGER` body. -/
def c1State : ParserState :=
  { statement := { start := some 0, type := some "CREATE_TRIGGER",
                   executionType := some "MODIFICATION" },
    steps := createSteps, currentStepIndex := 2,
    prevToken := some (wsTok 22), isStrict := true, dialect := "sqlite" }

/-- A classifier state inside a `psql` `CREATE FUNCTION` body with one open
block. -/
def c2State : ParserState :=
  { statement := { start := some 0, type := some "CREATE_FUNCTION",
                   executionType := some "MODIFICATION", openBlocks := some 1 },
    steps := createSteps, currentStepIndex := 2,
    prevToken := some (wsTok 23), isStrict := true, dialect := "psql" }

/-- The same state with two (nested) open blocks. -/
def c2StateNested : ParserState :=
  { statement := { start := some 0, type := some "CREATE_FUNCTION",
                   executionType := some "MODIFICATION", openBlocks := some 2 },
    steps := createSteps, currentStepIndex := 2,
    prevToken := some (wsTok 29), isStrict := true, dialect := "psql" }

/-- Token stream of `CREATE TRIGGER t BEGIN b; END;` with `END` scanned as a
non-reserved word (token type `unknown`). -/
def c3TriggerToks : List Token :=
  [kwTok "CREATE" 0 5, wsTok 6, kwTok "TRIGGER" 7 13, wsTok 14, unkTok "t" 15 15,
   wsTok 16, kwTok "BEGIN" 17 21, wsTok 22, unkTok "b" 23 23, semiTok 24,
   wsTok 25, unkTok "END" 26 28, semiTok 29]

/-- Token stream of `CREATE DEFINER=u FUNCTION f;` (no whitespace around `=`). -/
def c7NoSpaceToks : List Token :=
  [kwTok "CREATE" 0 5, wsTok 6, kwTok "DEFINER" 7 13, unkTok "=" 14 14,
   unkTok "u" 15 15, wsTok 16, kwTok "FUNCTION" 17 24, wsTok 25,
   unkTok "f" 26 26, semiTok 27]

/-- Token stream of `CREATE DEFINER = u FUNCTION f;` (whitespace-separated). -/
def c7SpacedToks : List Token :=
  [kwTok "CREATE" 0 5, wsTok 6, kwTok "DEFINER" 7 13, wsTok 14, unkTok "=" 15 15,
   wsTok 16, unkTok "u" 17 17, wsTok 18, kwTok "FUNCTION" 19 26, wsTok 27,
   unkTok "f" 28 28, semiTok 29]

/-- Token stream of `CREATE FUNCTION f;` (no definer clause). -/
def c7PlainToks : List Token :=
  [kwTok "CREATE" 0 5, wsTok 6, kwTok "FUNCTION" 7 14, wsTok 15,
   unkTok "f" 16 16, semiTok 17]

/-! ## Small computation lemmas -/

lemma optContains_none (l : List String) : optContains l none = false := rfl

lemma initStatement_type (d : String) : (initStatement d).type = none := by
  unfold initStatement; split <;> rfl

lemma initStatement_endStatement (d : String) : (initStatement d).endStatement = none := by
  unfold initStatement; split <;> rfl

lemma initStatement_definer (d : String) : (initStatement d).definer = .unset := by
  unfold initStatement; split <;> rfl

lemma initStatement_canEnd (d : String) : (initStatement d).canEnd = false := by
  unfold initStatement; split <;> rfl

/-! ## Claim theorems: direct classifier-level claims -/

/-- Claim C9: feeding any token to a classifier whose statement already has
`endStatement` set raises the error, whatever the strict flag and dialect of
the classifier (the guard precedes every strict-mode test). -/
theorem c9_token_after_end_errors (p : ParserState) (t : Token)
    (h : p.statement.endStatement.isSome = true) :
    addToken p t = .error "This statement has already got to the end." := by
  unfold addToken
  simp [h]

theorem c9_witness :
    addToken c9State { type := "keyword", value := "SELECT", start := 9, stop := 14 }
      = .error "This statement has already got to the end." :=
  c9_token_after_end_errors c9State _ rfl

/-- Claim C10: parsing the empty input (no scanned tokens, `input.length - 1 = -1`)
returns, for any strict flag and dialect, the `QUERY` result with `start 0`,
`end -1`, empty body and empty token list. -/
theorem c10_empty_input (isStrict : Bool) (dialect : String) :
    parseTokens [] isStrict dialect (-1)
      = .ok { type := "QUERY", start := 0, stop := -1, body := [], tokens := [] } := rfl

/-- Claim C3: under the `generic` dialect no suppression rule applies — the
first semicolon fed to any active classifier (any statement type, any
`canEnd`) immediately sets `endStatement` to `";"`; and a trigger body with
an embedded semicolon splits into two statements, the first ending at the
embedded semicolon (instance: the stream of
`CREATE TRIGGER t BEGIN b; END;` in non-strict mode, `END` scanned as a
non-keyword word). -/
theorem c3_generic_semicolon_immediate :
    (∀ (p : ParserState) (t : Token), p.dialect = "generic" →
        p.statement.endStatement = none → t.type = "semicolon" →
        addToken p t
          = .ok { p with statement := { p.statement with endStatement := some ";" } })
    ∧ (parseTokens c3TriggerToks false "generic" 29).map
        (fun r => (r.body.length, r.body.map Statement.stop, r.body.map Statement.type))
      = .ok (2, [some 24, some 29], [some "CREATE_TRIGGER", some "UNKNOWN"]) := by
  constructor
  · intro p t hd he ht
    unfold addToken
    simp [hd, he, ht, dialectsWithEnds]
  · rfl

theorem c3_witness :
    addToken
      { statement := { start := some 0, type := some "CREATE_TRIGGER",
                       executionType := some "MODIFICATION" },
        steps := createSteps, currentStepIndex := 2,
        prevToken := some (unkTok "b" 23 23), isStrict := true, dialect := "generic" }
      (semiTok 24)
      = .ok { statement := { start := some 0, type := some "CREATE_TRIGGER",
                             executionType := some "MODIFICATION",
                             endStatement := some ";" },
              steps := createSteps, currentStepIndex := 2,
              prevToken := some (unkTok "b" 23 23), isStrict := true,
              dialect := "generic" } :=
  c3_generic_semicolon_immediate.1 _ _ rfl rfl rfl

/-- Claim C5 (counterexample): in non-strict mode a first token that is a
keyword outside the seven supported ones (here `TABLE`, which the scanner
must classify as a keyword for `CREATE TABLE` to work) does not select an
unknown classifier — it raises, because the fallback only accepts tokens of
type `unknown`. -/
theorem c5_counterexample_nonstrict_keyword :
    createStatementParserByToken (kwTok "TABLE" 0 4) false "generic"
      = .error "Invalid statement parser \"TABLE\"" := rfl

/-- Claim C5 (amended): a keyword among
`SELECT/CREATE/DROP/INSERT/UPDATE/DELETE/TRUNCATE` (case-insensitive)
selects the matching classifier (only `CREATE` receives the dialect); any
other token raises in strict mode; in non-strict mode only a token of type
`unknown` selects the unknown classifier (whose first fed token yields
`type UNKNOWN` and `executionType UNKNOWN`), while any other non-matching
token raises as well. -/
theorem c5_statement_parser_selection :
    (∀ (t : Token) (s : Bool) (d : String), t.type = "keyword" →
      ((jsUpper t.value = "SELECT" →
          createStatementParserByToken t s d = .ok (initParser selectSteps s "generic")) ∧
       (jsUpper t.value = "CREATE" →
          createStatementParserByToken t s d = .ok (initParser createSteps s d)) ∧
       (jsUpper t.value = "DROP" →
          createStatementParserByToken t s d = .ok (initParser dropSteps s "generic")) ∧
       (jsUpper t.value = "INSERT" →
          createStatementParserByToken t s d = .ok (initParser insertSteps s "generic")) ∧
       (jsUpper t.value = "UPDATE" →
          createStatementParserByToken t s d = .ok (initParser updateSteps s "generic")) ∧
       (jsUpper t.value = "DELETE" →
          createStatementParserByToken t s d = .ok (initParser deleteSteps s "generic")) ∧
       (jsUpper t.value = "TRUNCATE" →
          createStatementParserByToken t s d = .ok (initParser truncateSteps s "generic")))) ∧
    (∀ (t : Token) (d : String),
      (t.type = "keyword" →
        ["SELECT", "CREATE", "DROP", "INSERT", "UPDATE", "DELETE", "TRUNCATE"].contains
          (jsUpper t.value) = false) →
      createStatementParserByToken t true d
        = .error ("Invalid statement parser \"" ++ t.value ++ "\"")) ∧
    (∀ (t : Token) (d : String),
      (t.type = "keyword" →
        ["SELECT", "CREATE", "DROP", "INSERT", "UPDATE", "DELETE", "TRUNCATE"].contains
          (jsUpper t.value) = false) →
      t.type ≠ "unknown" →
      createStatementParserByToken t false d
        = .error ("Invalid statement parser \"" ++ t.value ++ "\"")) ∧
    (∀ (t : Token) (d : String), t.type = "unknown" →
      createStatementParserByToken t false d = .ok (initParser unknownSteps false "generic")
      ∧ addToken (initParser unknownSteps false "generic") t
          = .ok { statement :=
                    { start := some t.start, type := some "UNKNOWN",
                      executionType := some "UNKNOWN" },
                  steps := unknownSteps, currentStepIndex := 1, prevToken := some t,
                  isStrict := false, dialect := "generic" }) := by
  refine ⟨?_, ?_, ?_, ?_⟩
  · intro t s d ht
    refine ⟨?_, ?_, ?_, ?_, ?_, ?_, ?_⟩ <;> intro hv <;>
      · unfold createStatementParserByToken
        simp [ht, hv]
  · intro t d hsev
    unfold createStatementParserByToken fallbackCreate
    split
    · rename_i hkw
      have ht : t.type = "keyword" := by simpa using hkw
      have hc := hsev ht
      split
      all_goals first
        | (rename_i hv; rw [hv] at hc; simp at hc)
        | simp
    · simp
  · intro t d hsev hunk
    unfold createStatementParserByToken fallbackCreate
    split
    · rename_i hkw
      have ht : t.type = "keyword" := by simpa using hkw
      have hc := hsev ht
      split
      all_goals first
        | (rename_i hv; rw [hv] at hc; simp at hc)
        | simp [ht]
    · simp [show (t.type == "unknown") = false by simpa using hunk]
  · intro t d ht
    constructor
    · unfold createStatementParserByToken fallbackCreate
      simp [ht]
    · unfold addToken addTokenRest addTokenRest2 addTokenDefiner addTokenSteps
      simp [ht, initParser, initStatement, dialectsWithOpenBlocks, dialectsWithEnds,
        optContains, definerGtZero, unknownSteps, isValidToken, executionTypeFor,
        EXECUTION_TYPES]
      rfl

theorem c5_witness :
    createStatementParserByToken (kwTok "SELECT" 0 5) true "generic"
        = .ok (initParser selectSteps true "generic")
    ∧ createStatementParserByToken (unkTok "G" 0 0) false "generic"
        = .ok (initParser unknownSteps false "generic") :=
  ⟨(c5_statement_parser_selection.1 (kwTok "SELECT" 0 5) true "generic" rfl).1 rfl,
   (c5_statement_parser_selection.2.2.2 (unkTok "G" 0 0) "generic" rfl).1⟩

/-- Claim C6 (counterexample): `parse` performs no dialect validation — a
call with the unrecognized dialect `oracle` is not rejected: it returns
normally, with exactly the result the `generic` dialect produces. -/
theorem c6_counterexample_unrecognized_dialect :
    parseTokens [kwTok "SELECT" 0 5, semiTok 6] true "oracle" 6
        = .ok { type := "QUERY", start := 0, stop := 6,
                body := [{ start := some 0, stop := some 6, type := some "SELECT",
                           executionType := some "LISTING", endStatement := some ";" }],
                tokens := [kwTok "SELECT" 0 5, semiTok 6] }
    ∧ parseTokens [kwTok "SELECT" 0 5, semiTok 6] true "oracle" 6
        = parseTokens [kwTok "SELECT" 0 5, semiTok 6] true "generic" 6 := ⟨rfl, rfl⟩

/-- Claim C7 (counterexample): with no whitespace between `=` and the
principal, `CREATE DEFINER=u FUNCTION f;` under strict `mysql` parsing does
not classify as `CREATE_FUNCTION` — the token after `=` leaves the definer
clause (its predecessor is `=`, not whitespace) and fails the second CREATE
step's validation. -/
theorem c7_counterexample_definer_no_space :
    parseTokens c7NoSpaceToks true "mysql" 27
      = .error ("Expected any of these tokens (type=\"keyword\" value=\"TABLE\")"
          ++ " or (type=\"keyword\" value=\"DATABASE\")"
          ++ " or (type=\"keyword\" value=\"TRIGGER\")"
          ++ " or (type=\"keyword\" value=\"FUNCTION\")"
          ++ " instead of type=\"unknown\" value=\"u\" (currentStep=1).") := rfl

/-- Claim C7 (amended): the definer clause is consumed transparently when
whitespace separates `=` from the principal: `CREATE DEFINER = u FUNCTION f;`
under strict `mysql` parsing yields a single statement of type
`CREATE_FUNCTION`, the same type as `CREATE FUNCTION f;` without the
clause. -/
theorem c7_definer_spaced_transparent :
    (parseTokens c7SpacedToks true "mysql" 29).map (fun r => r.body.map Statement.type)
        = .ok [some "CREATE_FUNCTION"]
    ∧ (parseTokens c7PlainToks true "mysql" 17).map (fun r => r.body.map Statement.type)
        = .ok [some "CREATE_FUNCTION"] := ⟨rfl, rfl⟩

/-! ## Branch analysis of `addToken` -/

lemma optContains_isSome {l : List String} {t : Option String}
    (h : optContains l t = true) : t.isSome = true := by
  cases t
  · simp [optContains] at h
  · rfl

lemma addTokenSteps_spec (p : ParserState) (t : Token) (p2 : ParserState)
    (h : addTokenSteps p t = .ok p2) :
    p2.steps = p.steps ∧
    (MinorChange p.statement p2.statement ∨
     (p.statement.type = none ∧ StepOutcome p t p2.statement)) := by
  unfold addTokenSteps at h
  split at h
  · cases h
    exact ⟨rfl, .inl ⟨rfl, rfl, rfl, rfl⟩⟩
  · rename_i hty
    have htn : p.statement.type = none := by
      cases hh : p.statement.type
      · rfl
      · rw [hh] at hty; simp at hty
    split at h
    · simp at h
    · rename_i step0 hstep0
      split at h
      all_goals
      · simp only [] at h
        split at h
        · simp at h
        · rename_i currentStep hcur
          split at h
          · simp at h
          · split at h
            · simp at h
            · cases h
              exact ⟨rfl, .inr ⟨htn,
                ⟨currentStep, List.getElem?_mem hcur, p.statement, rfl, rfl, rfl⟩⟩⟩

lemma addTokenDefiner_spec (p : ParserState) (t : Token) (p2 : ParserState)
    (h : addTokenDefiner p t = .ok p2) :
    p2.steps = p.steps ∧
    (MinorChange p.statement p2.statement ∨
     (p.statement.type = none ∧ StepOutcome p t p2.statement)) := by
  unfold addTokenDefiner at h
  split at h
  · split at h
    · cases h
      exact ⟨rfl, .inl ⟨rfl, rfl, rfl, rfl⟩⟩
    · split at h
      · cases h
        exact ⟨rfl, .inl ⟨rfl, rfl, rfl, rfl⟩⟩
      · have h2 := addTokenSteps_spec _ _ _ h
        exact ⟨h2.1, h2.2⟩
  · exact addTokenSteps_spec _ _ _ h

lemma addTokenRest2_spec (p : ParserState) (t : Token) (p2 : ParserState)
    (h : addTokenRest2 p t = .ok p2) :
    p2.steps = p.steps ∧
    (MinorChange p.statement p2.statement ∨
     (p.statement.type = none ∧ StepOutcome p t p2.statement)) := by
  unfold addTokenRest2 at h
  split at h
  · cases h; exact ⟨rfl, .inl ⟨rfl, rfl, rfl, rfl⟩⟩
  · split at h
    · cases h; exact ⟨rfl, .inl ⟨rfl, rfl, rfl, rfl⟩⟩
    · split at h
      · cases h; exact ⟨rfl, .inl ⟨rfl, rfl, rfl, rfl⟩⟩
      · split at h
        · cases h; exact ⟨rfl, .inl ⟨rfl, rfl, rfl, rfl⟩⟩
        · split at h
          · cases h; exact ⟨rfl, .inl ⟨rfl, rfl, rfl, rfl⟩⟩
          · exact addTokenDefiner_spec _ _ _ h

lemma addTokenRest_spec (p : ParserState) (t : Token) (p2 : ParserState)
    (h : addTokenRest p t = .ok p2) :
    p2.steps = p.steps ∧
    (MinorChange p.statement p2.statement ∨
     (p.statement.type = none ∧ StepOutcome p t p2.statement) ∨
     (jsUpper t.value = "END" ∧ p2.statement.start = p.statement.start ∧
      p2.statement.type = p.statement.type ∧
      p2.statement.executionType = p.statement.executionType ∧
      p2.statement.canEnd = true ∧
      p2.statement.openBlocks = p.statement.openBlocks.map (· - 1) ∧
      (dialectsWithOpenBlocks.contains p.dialect = false ∨
        p2.statement.openBlocks = some 0))) := by
  unfold addTokenRest at h
  split at h
  · rename_i hcond
    rw [Bool.and_eq_true, Bool.and_eq_true] at hcond
    have hEnd : jsUpper t.value = "END" := by
      have := hcond.2
      simpa using this
    simp only [] at h
    split at h
    · rename_i hzero
      rw [Bool.or_eq_true] at hzero
      cases h
      refine ⟨rfl, .inr (.inr ⟨hEnd, rfl, rfl, rfl, rfl, rfl, ?_⟩)⟩
      rcases hzero with hz | hz
      · exact .inl (by simpa using hz)
      · exact .inr (by simpa using hz)
    · have h2 := addTokenRest2_spec _ _ _ h
      refine ⟨h2.1, ?_⟩
      rcases h2.2 with hmc | ⟨htn, hso⟩
      · exact .inl hmc
      · exact .inr (.inl ⟨htn, hso⟩)
  · have h2 := addTokenRest2_spec _ _ _ h
    exact ⟨h2.1, h2.2.elim .inl (fun x => .inr (.inl x))⟩

/-- Complete branch analysis of a successful `addToken`: the statement
either undergoes a minor change (semicolon termination, whitespace,
skipped clause, definer bookkeeping), or a step mutation ran (only
possible while `type` is unset), or the `END` rule fired. -/
lemma addToken_spec (p : ParserState) (t : Token) (p2 : ParserState)
    (h : addToken p t = .ok p2) :
    p2.steps = p.steps ∧
    (MinorChange p.statement p2.statement ∨
     (p.statement.type = none ∧ StepOutcome p t p2.statement) ∨
     (jsUpper t.value = "END" ∧ p2.statement.start = p.statement.start ∧
      p2.statement.type = p.statement.type ∧
      p2.statement.executionType = p.statement.executionType ∧
      p2.statement.canEnd = true ∧
      p2.statement.openBlocks = p.statement.openBlocks.map (· - 1) ∧
      (dialectsWithOpenBlocks.contains p.dialect = false ∨
        p2.statement.openBlocks = some 0))) := by
  unfold addToken at h
  split at h
  · simp at h
  · split at h
    · cases h
      exact ⟨rfl, .inl ⟨rfl, rfl, rfl, rfl⟩⟩
    · exact addTokenRest_spec _ _ _ h

lemma stepsPreserveCanEnd_createSteps : StepsPreserveCanEnd createSteps := by
  intro step hs st tok
  simp [createSteps] at hs
  rcases hs with h | h <;> subst h <;> rfl

/-- Claim C1: for the embedded-semicolon dialects (`sqlite`, `mssql`,
`psql`), while the statement type is `CREATE_TRIGGER` or `CREATE_FUNCTION`
and `canEnd` is unset, a semicolon does not terminate the statement (the
classifier state is unchanged); `canEnd` can only become set by a token
whose value is `END` case-insensitively (for `sqlite`/`mssql` any such
token sets it); and once `canEnd` is set the next semicolon terminates the
statement. -/
theorem c1_embedded_semicolon_suppression :
    (∀ (p : ParserState) (t : Token),
        dialectsWithEnds.contains p.dialect = true →
        optContains statementsWithEnds p.statement.type = true →
        p.statement.canEnd = false →
        p.statement.endStatement = none →
        p.statement.definer = .unset →
        t.type = "semicolon" → t.value = ";" →
        addToken p t = .ok p) ∧
    (∀ (p : ParserState) (t : Token) (p2 : ParserState),
        StepsPreserveCanEnd p.steps →
        p.statement.canEnd = false →
        addToken p t = .ok p2 →
        p2.statement.canEnd = true →
        jsUpper t.value = "END") ∧
    (∀ (p : ParserState) (t : Token),
        (p.dialect = "sqlite" ∨ p.dialect = "mssql") →
        optContains statementsWithEnds p.statement.type = true →
        p.statement.endStatement = none →
        p.statement.openBlocks = none →
        t.type ≠ "semicolon" →
        jsUpper t.value = "END" →
        addToken p t
          = .ok { p with statement := { p.statement with canEnd := true } }) ∧
    (∀ (p : ParserState) (t : Token),
        dialectsWithEnds.contains p.dialect = true →
        optContains statementsWithEnds p.statement.type = true →
        p.statement.canEnd = true →
        p.statement.endStatement = none →
        t.type = "semicolon" →
        addToken p t
          = .ok { p with statement := { p.statement with endStatement := some ";" } }) := by
  refine ⟨?_, ?_, ?_, ?_⟩
  · intro p t hd hty hce hes hdef htt htv
    have hd2 : p.dialect ∈ dialectsWithEnds := by simpa using hd
    unfold addToken addTokenRest addTokenRest2 addTokenDefiner addTokenSteps
    simp [hd2, hty, hce, hes, hdef, htt, htv, show jsUpper ";" = ";" from rfl,
      optContains_isSome hty, definerGtZero, blockOpeners,
      show (DefinerState.unset == DefinerState.count 0) = false from rfl]
  · intro p t p2 hsc hce h h2
    obtain ⟨hsteps, hcase⟩ := addToken_spec p t p2 h
    rcases hcase with hmc | ⟨htn, step, hmem, base, hbs, hbc, heq⟩ | hend
    · rw [hmc.2.2.2, hce] at h2
      exact absurd h2 (by simp)
    · have hc2 : p2.statement.canEnd = base.canEnd := by
        rw [heq]; exact hsc step hmem base t
      rw [hc2, hbc, hce] at h2
      exact absurd h2 (by simp)
    · exact hend.1
  · intro p t hd hty hes hob htt hv
    have hd2 : p.dialect ∈ dialectsWithEnds := by
      rcases hd with h | h <;> simp [h, dialectsWithEnds]
    have hd3 : p.dialect ∉ dialectsWithOpenBlocks := by
      rcases hd with h | h <;> simp [h, dialectsWithOpenBlocks]
    unfold addToken addTokenRest
    simp [hd2, hd3, hty, hes, hv, hob,
      show (t.type == "semicolon") = false by simpa using htt]
  · intro p t hd hty hce hes htt
    unfold addToken
    simp [hce, hes, htt]

theorem c1_witness :
    addToken c1State (semiTok 24) = .ok c1State
    ∧ jsUpper (kwTok "END" 26 28).value = "END"
    ∧ addToken c1State (kwTok "END" 26 28)
        = .ok { c1State with statement := { c1State.statement with canEnd := true } }
    ∧ addToken { c1State with statement := { c1State.statement with canEnd := true } }
        (semiTok 29)
        = .ok { c1State with statement :=
            { c1State.statement with canEnd := true, endStatement := some ";" } } :=
  ⟨c1_embedded_semicolon_suppression.1 c1State (semiTok 24)
      rfl rfl rfl rfl rfl rfl rfl,
   c1_embedded_semicolon_suppression.2.1 c1State (kwTok "END" 26 28)
      { c1State with statement := { c1State.statement with canEnd := true } }
      stepsPreserveCanEnd_createSteps rfl rfl rfl,
   c1_embedded_semicolon_suppression.2.2.1 c1State (kwTok "END" 26 28)
      (Or.inl rfl) rfl rfl rfl (by decide) rfl,
   c1_embedded_semicolon_suppression.2.2.2
      { c1State with statement := { c1State.statement with canEnd := true } }
      (semiTok 29) rfl rfl rfl rfl rfl⟩

/-- Claim C2: for a `psql` `CREATE_FUNCTION` statement, a `BEGIN`/`IF`/`LOOP`
token increments `openBlocks`, an `END` token decrements it (setting
`canEnd` exactly when the count reaches zero, and only falling through
otherwise), and `canEnd` can only become set by an `END` token that brings
`openBlocks` from one to zero. -/
theorem c2_psql_open_blocks :
    (∀ (p : ParserState) (t : Token),
        p.dialect = "psql" →
        p.statement.type = some "CREATE_FUNCTION" →
        p.statement.endStatement = none →
        t.type ≠ "semicolon" → t.type ≠ "whitespace" →
        blockOpeners.contains (jsUpper t.value) = true →
        addToken p t = .ok { p with statement :=
          { p.statement with openBlocks := p.statement.openBlocks.map (· + 1) } }) ∧
    (∀ (p : ParserState) (t : Token),
        p.dialect = "psql" →
        p.statement.type = some "CREATE_FUNCTION" →
        p.statement.endStatement = none →
        p.statement.openBlocks = some 1 →
        t.type ≠ "semicolon" →
        jsUpper t.value = "END" →
        addToken p t = .ok { p with statement :=
          { p.statement with openBlocks := some 0, canEnd := true } }) ∧
    (∀ (p : ParserState) (t : Token) (k : Int),
        p.dialect = "psql" →
        p.statement.type = some "CREATE_FUNCTION" →
        p.statement.endStatement = none →
        p.statement.definer = .unset →
        p.statement.openBlocks = some k →
        k ≠ 1 →
        t.type ≠ "semicolon" → t.type ≠ "whitespace" →
        jsUpper t.value = "END" →
        addToken p t = .ok { p with statement :=
          { p.statement with openBlocks := some (k - 1) } }) ∧
    (∀ (p : ParserState) (t : Token) (p2 : ParserState) (k : Int),
        p.dialect = "psql" →
        p.statement.type = some "CREATE_FUNCTION" →
        p.statement.canEnd = false →
        p.statement.openBlocks = some k →
        StepsPreserveCanEnd p.steps →
        addToken p t = .ok p2 →
        p2.statement.canEnd = true →
        jsUpper t.value = "END" ∧ k = 1 ∧ p2.statement.openBlocks = some 0) := by
  refine ⟨?_, ?_, ?_, ?_⟩
  · intro p t hd hty hes htt1 htt2 hbo
    simp only [blockOpeners] at hbo
    rw [List.contains_iff_exists_mem_beq] at hbo
    simp at hbo
    unfold addToken addTokenRest addTokenRest2
    rcases hbo with hv | hv | hv <;>
      simp [hd, hty, hes, hv, blockOpeners, dialectsWithOpenBlocks, dialectsWithEnds,
        optContains, statementsWithEnds,
        show (t.type == "semicolon") = false by simpa using htt1,
        show (t.type == "whitespace") = false by simpa using htt2]
  · intro p t hd hty hes hob htt1 hv
    unfold addToken addTokenRest
    simp [hd, hty, hes, hob, hv, dialectsWithEnds, optContains, statementsWithEnds,
      show (t.type == "semicolon") = false by simpa using htt1]
  · intro p t k hd hty hes hdef hob hk htt1 htt2 hv
    have hk0 : ¬(k - 1 = 0) := by omega
    unfold addToken addTokenRest addTokenRest2 addTokenDefiner addTokenSteps
    simp [hd, hty, hes, hdef, hob, hv, hk0, dialectsWithEnds, dialectsWithOpenBlocks,
      blockOpeners, definerGtZero, optContains, statementsWithEnds,
      show (t.type == "semicolon") = false by simpa using htt1,
      show (t.type == "whitespace") = false by simpa using htt2,
      show (DefinerState.unset == DefinerState.count 0) = false from rfl]
  · intro p t p2 k hd hty hce hob hsc h h2
    obtain ⟨hsteps, hcase⟩ := addToken_spec p t p2 h
    rcases hcase with hmc | ⟨htn, step, hmem, base, hbs, hbc, heq⟩ | hend
    · rw [hmc.2.2.2, hce] at h2
      exact absurd h2 (by simp)
    · rw [hty] at htn
      exact absurd htn (by simp)
    · obtain ⟨hEnd, _, _, _, _, hobs, hdisj⟩ := hend
      have hz : p2.statement.openBlocks = some 0 := by
        rcases hdisj with hcontra | hz
        · rw [hd] at hcontra
          exact absurd hcontra (by simp [dialectsWithOpenBlocks])
        · exact hz
      refine ⟨hEnd, ?_, hz⟩
      rw [hob] at hobs
      simp at hobs
      rw [hobs] at hz
      have := Option.some.inj hz
      omega

theorem c2_witness :
    addToken c2State (kwTok "BEGIN" 18 22)
        = .ok { c2State with statement :=
            { c2State.statement with openBlocks := some 2 } }
    ∧ addToken c2State (kwTok "END" 33 35)
        = .ok { c2State with statement :=
            { c2State.statement with openBlocks := some 0, canEnd := true } }
    ∧ addToken c2StateNested (kwTok "END" 33 35)
        = .ok { c2StateNested with statement :=
            { c2StateNested.statement with openBlocks := some 1 } }
    ∧ (jsUpper (kwTok "END" 33 35).value = "END" ∧ (1 : Int) = 1 ∧
        ({ c2State with statement :=
            { c2State.statement with openBlocks := some 0, canEnd := true } }
          : ParserState).statement.openBlocks = some 0) :=
  ⟨c2_psql_open_blocks.1 c2State (kwTok "BEGIN" 18 22)
      rfl rfl rfl (by decide) (by decide) rfl,
   c2_psql_open_blocks.2.1 c2State (kwTok "END" 33 35)
      rfl rfl rfl rfl (by decide) rfl,
   c2_psql_open_blocks.2.2.1 c2StateNested (kwTok "END" 33 35) 2
      rfl rfl rfl rfl rfl (by decide) (by decide) (by decide) rfl,
   c2_psql_open_blocks.2.2.2 c2State (kwTok "END" 33 35)
      { c2State with statement :=
          { c2State.statement with openBlocks := some 0, canEnd := true } } 1
      rfl rfl rfl rfl stepsPreserveCanEnd_createSteps rfl rfl⟩

/-! ## Step tables are well behaved -/

lemma stepsOK_selectSteps : StepsOK selectSteps := by
  intro step hs st tok
  simp [selectSteps] at hs
  subst hs
  exact .inr rfl

lemma stepsOK_insertSteps : StepsOK insertSteps := by
  intro step hs st tok
  simp [insertSteps] at hs
  subst hs
  exact .inr rfl

lemma stepsOK_updateSteps : StepsOK updateSteps := by
  intro step hs st tok
  simp [updateSteps] at hs
  subst hs
  exact .inr rfl

lemma stepsOK_deleteSteps : StepsOK deleteSteps := by
  intro step hs st tok
  simp [deleteSteps] at hs
  subst hs
  exact .inr rfl

lemma stepsOK_truncateSteps : StepsOK truncateSteps := by
  intro step hs st tok
  simp [truncateSteps] at hs
  subst hs
  exact .inr rfl

lemma stepsOK_createSteps : StepsOK createSteps := by
  intro step hs st tok
  simp [createSteps] at hs
  rcases hs with h | h <;> subst h
  · exact .inr rfl
  · exact .inl rfl

lemma stepsOK_dropSteps : StepsOK dropSteps := by
  intro step hs st tok
  simp [dropSteps] at hs
  rcases hs with h | h <;> subst h
  · exact .inr rfl
  · exact .inl rfl

lemma stepsOK_unknownSteps : StepsOK unknownSteps := by
  intro step hs st tok
  simp [unknownSteps] at hs
  subst hs
  exact .inr rfl

/-! ## The first fed token always runs the first step's mutation -/

lemma first_feed_select (t : Token) (s : Bool) (ht : t.type = "keyword")
    (hv : jsUpper t.value = "SELECT") :
    addToken (initParser selectSteps s "generic") t
      = .ok { statement := { start := some t.start, type := some "SELECT",
                             executionType := some "LISTING" },
              steps := selectSteps, currentStepIndex := 1, prevToken := some t,
              isStrict := s, dialect := "generic" } := by
  unfold addToken addTokenRest addTokenRest2 addTokenDefiner addTokenSteps initParser
  simp [ht, hv, initStatement, dialectsWithOpenBlocks, dialectsWithEnds, blockOpeners,
    optContains, definerGtZero, selectSteps, isValidToken, hasRequiredBefore,
    executionTypeFor, EXECUTION_TYPES, List.lookup]

lemma first_feed_insert (t : Token) (s : Bool) (ht : t.type = "keyword")
    (hv : jsUpper t.value = "INSERT") :
    addToken (initParser insertSteps s "generic") t
      = .ok { statement := { start := some t.start, type := some "INSERT",
                             executionType := some "MODIFICATION" },
              steps := insertSteps, currentStepIndex := 1, prevToken := some t,
              isStrict := s, dialect := "generic" } := by
  unfold addToken addTokenRest addTokenRest2 addTokenDefiner addTokenSteps initParser
  simp [ht, hv, initStatement, dialectsWithOpenBlocks, dialectsWithEnds, blockOpeners,
    optContains, definerGtZero, insertSteps, isValidToken, hasRequiredBefore,
    executionTypeFor, EXECUTION_TYPES, List.lookup]

lemma first_feed_update (t : Token) (s : Bool) (ht : t.type = "keyword")
    (hv : jsUpper t.value = "UPDATE") :
    addToken (initParser updateSteps s "generic") t
      = .ok { statement := { start := some t.start, type := some "UPDATE",
                             executionType := some "MODIFICATION" },
              steps := updateSteps, currentStepIndex := 1, prevToken := some t,
              isStrict := s, dialect := "generic" } := by
  unfold addToken addTokenRest addTokenRest2 addTokenDefiner addTokenSteps initParser
  simp [ht, hv, initStatement, dialectsWithOpenBlocks, dialectsWithEnds, blockOpeners,
    optContains, definerGtZero, updateSteps, isValidToken, hasRequiredBefore,
    executionTypeFor, EXECUTION_TYPES, List.lookup]

lemma first_feed_delete (t : Token) (s : Bool) (ht : t.type = "keyword")
    (hv : jsUpper t.value = "DELETE") :
    addToken (initParser deleteSteps s "generic") t
      = .ok { statement := { start := some t.start, type := some "DELETE",
                             executionType := some "MODIFICATION" },
              steps := deleteSteps, currentStepIndex := 1, prevToken := some t,
              isStrict := s, dialect := "generic" } := by
  unfold addToken addTokenRest addTokenRest2 addTokenDefiner addTokenSteps initParser
  simp [ht, hv, initStatement, dialectsWithOpenBlocks, dialectsWithEnds, blockOpeners,
    optContains, definerGtZero, deleteSteps, isValidToken, hasRequiredBefore,
    executionTypeFor, EXECUTION_TYPES, List.lookup]

lemma first_feed_truncate (t : Token) (s : Bool) (ht : t.type = "keyword")
    (hv : jsUpper t.value = "TRUNCATE") :
    addToken (initParser truncateSteps s "generic") t
      = .ok { statement := { start := some t.start, type := some "TRUNCATE",
                             executionType := some "MODIFICATION" },
              steps := truncateSteps, currentStepIndex := 1, prevToken := some t,
              isStrict := s, dialect := "generic" } := by
  unfold addToken addTokenRest addTokenRest2 addTokenDefiner addTokenSteps initParser
  simp [ht, hv, initStatement, dialectsWithOpenBlocks, dialectsWithEnds, blockOpeners,
    optContains, definerGtZero, truncateSteps, isValidToken, hasRequiredBefore,
    executionTypeFor, EXECUTION_TYPES, List.lookup]

lemma first_feed_create (t : Token) (s : Bool) (d : String) (ht : t.type = "keyword")
    (hv : jsUpper t.value = "CREATE") :
    addToken (initParser createSteps s d) t
      = .ok { statement := { initStatement d with
                               start := some t.start,
                               executionType := some "UNKNOWN" },
              steps := createSteps, currentStepIndex := 1, prevToken := some t,
              isStrict := s, dialect := d } := by
  unfold addToken addTokenRest addTokenRest2 addTokenDefiner addTokenSteps initParser
  simp [ht, hv, initStatement_type, initStatement_endStatement, initStatement_definer,
    blockOpeners, optContains, definerGtZero, createSteps, isValidToken,
    hasRequiredBefore, executionTypeFor, EXECUTION_TYPES, List.lookup]

lemma first_feed_drop (t : Token) (s : Bool) (ht : t.type = "keyword")
    (hv : jsUpper t.value = "DROP") :
    addToken (initParser dropSteps s "generic") t
      = .ok { statement := { start := some t.start,
                             executionType := some "UNKNOWN" },
              steps := dropSteps, currentStepIndex := 1, prevToken := some t,
              isStrict := s, dialect := "generic" } := by
  unfold addToken addTokenRest addTokenRest2 addTokenDefiner addTokenSteps initParser
  simp [ht, hv, initStatement, dialectsWithOpenBlocks, dialectsWithEnds, blockOpeners,
    optContains, definerGtZero, dropSteps, isValidToken, hasRequiredBefore,
    executionTypeFor, EXECUTION_TYPES, List.lookup]

lemma first_feed_unknown (t : Token) (ht : t.type = "unknown") :
    addToken (initParser unknownSteps false "generic") t
      = .ok { statement := { start := some t.start, type := some "UNKNOWN",
                             executionType := some "UNKNOWN" },
              steps := unknownSteps, currentStepIndex := 1, prevToken := some t,
              isStrict := false, dialect := "generic" } := by
  unfold addToken addTokenRest addTokenRest2 addTokenDefiner addTokenSteps initParser
  simp [ht, initStatement, dialectsWithOpenBlocks, dialectsWithEnds, blockOpeners,
    optContains, definerGtZero, unknownSteps, isValidToken, hasRequiredBefore,
    executionTypeFor, EXECUTION_TYPES, List.lookup]

lemma create_cases (t : Token) (isStrict : Bool) (dialect : String) (p0 : ParserState)
    (h : createStatementParserByToken t isStrict dialect = .ok p0) :
    (t.type = "keyword" ∧
      ((jsUpper t.value = "SELECT" ∧ p0 = initParser selectSteps isStrict "generic") ∨
       (jsUpper t.value = "CREATE" ∧ p0 = initParser createSteps isStrict dialect) ∨
       (jsUpper t.value = "DROP" ∧ p0 = initParser dropSteps isStrict "generic") ∨
       (jsUpper t.value = "INSERT" ∧ p0 = initParser insertSteps isStrict "generic") ∨
       (jsUpper t.value = "UPDATE" ∧ p0 = initParser updateSteps isStrict "generic") ∨
       (jsUpper t.value = "DELETE" ∧ p0 = initParser deleteSteps isStrict "generic") ∨
       (jsUpper t.value = "TRUNCATE" ∧ p0 = initParser truncateSteps isStrict "generic"))) ∨
    (isStrict = false ∧ t.type = "unknown" ∧ p0 = initParser unknownSteps false "generic") := by
  unfold createStatementParserByToken fallbackCreate at h
  split at h
  · rename_i hkw
    have ht : t.type = "keyword" := by simpa using hkw
    split at h
    all_goals first
      | (rename_i hv; cases h; exact .inl ⟨ht, by simp [hv]⟩)
      | (split at h
         · rename_i hnd
           rw [Bool.and_eq_true] at hnd
           cases h
           exact .inr ⟨by simpa using hnd.1, by simpa using hnd.2, rfl⟩
         · simp at h)
  · split at h
    · rename_i hnd
      rw [Bool.and_eq_true] at hnd
      cases h
      exact .inr ⟨by simpa using hnd.1, by simpa using hnd.2, rfl⟩
    · simp at h

lemma first_feed (t : Token) (isStrict : Bool) (dialect : String) (p0 p2 : ParserState)
    (hc : createStatementParserByToken t isStrict dialect = .ok p0)
    (h : addToken p0 t = .ok p2) :
    p2.statement.start = some t.start ∧ PExec p2.statement ∧ StepsOK p2.steps := by
  rcases create_cases t isStrict dialect p0 hc with ⟨ht, hcase⟩ | ⟨hsf, ht, he⟩
  · rcases hcase with ⟨hv, he⟩ | ⟨hv, he⟩ | ⟨hv, he⟩ | ⟨hv, he⟩ | ⟨hv, he⟩ | ⟨hv, he⟩ | ⟨hv, he⟩
    · subst he; rw [first_feed_select t isStrict ht hv] at h
      cases h; exact ⟨rfl, rfl, stepsOK_selectSteps⟩
    · subst he; rw [first_feed_create t isStrict dialect ht hv] at h
      cases h
      refine ⟨rfl, ?_, stepsOK_createSteps⟩
      unfold PExec
      simp [initStatement_type, executionTypeFor]
    · subst he; rw [first_feed_drop t isStrict ht hv] at h
      cases h; exact ⟨rfl, rfl, stepsOK_dropSteps⟩
    · subst he; rw [first_feed_insert t isStrict ht hv] at h
      cases h; exact ⟨rfl, rfl, stepsOK_insertSteps⟩
    · subst he; rw [first_feed_update t isStrict ht hv] at h
      cases h; exact ⟨rfl, rfl, stepsOK_updateSteps⟩
    · subst he; rw [first_feed_delete t isStrict ht hv] at h
      cases h; exact ⟨rfl, rfl, stepsOK_deleteSteps⟩
    · subst he; rw [first_feed_truncate t isStrict ht hv] at h
      cases h; exact ⟨rfl, rfl, stepsOK_truncateSteps⟩
  · subst he; rw [first_feed_unknown t ht] at h
    cases h; exact ⟨rfl, rfl, stepsOK_unknownSteps⟩

lemma addToken_steps_eq (p : ParserState) (t : Token) (p2 : ParserState)
    (h : addToken p t = .ok p2) : p2.steps = p.steps :=
  (addToken_spec p t p2 h).1

lemma addToken_start (p : ParserState) (t : Token) (p2 : ParserState)
    (hso : StepsOK p.steps) (h : addToken p t = .ok p2) :
    p2.statement.start = p.statement.start ∨ p2.statement.start = some t.start := by
  rcases (addToken_spec p t p2 h).2 with hmc | ⟨htn, step, hmem, base, hbs, hbc, heq⟩ | hend
  · exact .inl hmc.1
  · have hpr : p2.statement.start = (step.add base t).start := by rw [heq]
    rcases hso step hmem base t with h1 | h1
    · refine .inl ?_
      rw [hpr, h1, hbs]
    · refine .inr ?_
      rw [hpr, h1]
  · exact .inl hend.2.1

lemma addToken_pexec (p : ParserState) (t : Token) (p2 : ParserState)
    (hpe : PExec p.statement) (h : addToken p t = .ok p2) :
    PExec p2.statement := by
  rcases (addToken_spec p t p2 h).2 with hmc | ⟨htn, step, hmem, base, hbs, hbc, heq⟩ | hend
  · unfold PExec at hpe ⊢
    rw [hmc.2.2.1, hmc.2.1]
    exact hpe
  · unfold PExec
    rw [heq]
  · obtain ⟨_, _, hty2, hex2, _⟩ := hend
    unfold PExec at hpe ⊢
    rw [hex2, hty2]
    exact hpe

/-- A sealed statement keeps the execution-type consistency when its `end`
offset is fixed. -/
lemma pexec_set_stop (s : Statement) (e : Int) (h : PExec s) :
    PExec { s with stop := some e } := h

/-- Execution-type consistency for every sealed statement and for the
active classifier's statement, along the whole scanning loop. -/
lemma runTokens_pexec (isStrict : Bool) (dialect : String) :
    ∀ (toks : List Token) (sp : Option ParserState) (body : List Statement)
      (out : List Statement × Option ParserState),
      (∀ st ∈ body, PExec st) →
      (∀ p, sp = some p → PExec p.statement) →
      runTokens isStrict dialect toks sp body = .ok out →
      (∀ st ∈ out.1, PExec st) ∧ (∀ p, out.2 = some p → PExec p.statement)
  | [], sp, body, out, hb, hs, hrun => by
      unfold runTokens at hrun
      cases hrun
      exact ⟨hb, hs⟩
  | t :: rest, sp, body, out, hb, hs, hrun => by
      unfold runTokens at hrun
      cases hsp : sp with
      | some p =>
        rw [hsp] at hrun hs
        simp only [] at hrun
        cases ha : addToken p t with
        | error e => rw [ha] at hrun; simp at hrun
        | ok p2 =>
          rw [ha] at hrun
          simp only [] at hrun
          have hpe2 : PExec p2.statement := addToken_pexec p t p2 (hs p rfl) ha
          by_cases hend : p2.statement.endStatement.isSome
          · rw [if_pos hend] at hrun
            refine runTokens_pexec isStrict dialect rest none
              (body ++ [{ p2.statement with stop := some t.stop }]) out ?_ ?_ hrun
            · intro st hst
              rcases List.mem_append.mp hst with hold | hnew
              · exact hb st hold
              · rw [List.mem_singleton.mp hnew]
                exact pexec_set_stop _ _ hpe2
            · intro q hq; cases hq
          · rw [if_neg hend] at hrun
            refine runTokens_pexec isStrict dialect rest (some p2) body out hb ?_ hrun
            intro q hq
            cases hq
            exact hpe2
      | none =>
        rw [hsp] at hrun hs
        by_cases hig : ignoreOutsideBlankTokens.contains t.type
        · simp only [hig, if_true] at hrun
          exact runTokens_pexec isStrict dialect rest none body out hb (fun q hq => by cases hq) hrun
        · simp only [hig, Bool.false_eq_true, if_false] at hrun
          cases hc : createStatementParserByToken t isStrict dialect with
          | error e => rw [hc] at hrun; simp [Except.map] at hrun
          | ok p0 =>
            rw [hc] at hrun
            simp only [Except.map] at hrun
            cases ha : addToken p0 t with
            | error e => rw [ha] at hrun; simp at hrun
            | ok p2 =>
              rw [ha] at hrun
              simp only [] at hrun
              have hff := first_feed t isStrict dialect p0 p2 hc ha
              by_cases hend : p2.statement.endStatement.isSome
              · rw [if_pos hend] at hrun
                refine runTokens_pexec isStrict dialect rest none
                  (body ++ [{ p2.statement with stop := some t.stop }]) out ?_ ?_ hrun
                · intro st hst
                  rcases List.mem_append.mp hst with hold | hnew
                  · exact hb st hold
                  · rw [List.mem_singleton.mp hnew]
                    exact pexec_set_stop _ _ hff.2.1
                · intro q hq; cases hq
              · rw [if_neg hend] at hrun
                refine runTokens_pexec isStrict dialect rest (some p2) body out hb ?_ hrun
                intro q hq
                cases hq
                exact hff.2.1

/-- Claim C4: every statement in the body of any `parse` result has
`executionType` equal to the `EXECUTION_TYPES` lookup applied to its
`type`; the lookup maps `SELECT` to `LISTING`, the ten data/schema
statements to `MODIFICATION`, and everything else — including an
unassigned type — to `UNKNOWN`. -/
theorem c4_execution_type_table :
    (∀ (toks : List Token) (isStrict : Bool) (dialect : String) (inputEnd : Int)
        (res : ParseResult),
      parseTokens toks isStrict dialect inputEnd = .ok res →
      ∀ st ∈ res.body, st.executionType = some (executionTypeFor st.type)) ∧
    executionTypeFor (some "SELECT") = "LISTING" ∧
    (∀ s ∈ ["INSERT", "UPDATE", "DELETE", "TRUNCATE", "CREATE_DATABASE",
        "CREATE_TABLE", "CREATE_TRIGGER", "CREATE_FUNCTION", "DROP_DATABASE",
        "DROP_TABLE"], executionTypeFor (some s) = "MODIFICATION") ∧
    (∀ s : String, s ∉ ["SELECT", "INSERT", "UPDATE", "DELETE", "TRUNCATE",
        "CREATE_DATABASE", "CREATE_TABLE", "CREATE_TRIGGER", "CREATE_FUNCTION",
        "DROP_DATABASE", "DROP_TABLE"] →
      executionTypeFor (some s) = "UNKNOWN") ∧
    executionTypeFor none = "UNKNOWN" := by
  refine ⟨?_, rfl, ?_, ?_, rfl⟩
  · intro toks isStrict dialect inputEnd res h st hst
    unfold parseTokens at h
    cases hr : runTokens isStrict dialect toks none [] with
    | error e => rw [hr] at h; simp at h
    | ok pair =>
      obtain ⟨body, sp⟩ := pair
      have hinv := runTokens_pexec isStrict dialect toks none [] (body, sp)
        (by intro st2 hst2; simp at hst2) (by intro q hq; cases hq) hr
      rw [hr] at h
      simp only [] at h
      cases sp with
      | none =>
        cases h
        exact hinv.1 st hst
      | some p =>
        simp only [] at h
        by_cases hend : p.statement.endStatement.isNone
        · rw [if_pos hend] at h
          cases h
          rcases List.mem_append.mp hst with hold | hnew
          · exact hinv.1 st hold
          · rw [List.mem_singleton.mp hnew]
            exact pexec_set_stop _ _ (hinv.2 p rfl)
        · rw [if_neg hend] at h
          cases h
          exact hinv.1 st hst
  · intro s hs
    simp only [List.mem_cons, List.not_mem_nil, or_false] at hs
    rcases hs with h | h | h | h | h | h | h | h | h | h <;> subst h <;> rfl
  · intro s hs
    simp only [List.mem_cons, not_or] at hs
    obtain ⟨h1, h2, h3, h4, h5, h6, h7, h8, h9, h10, h11, _⟩ := hs
    by_cases hu : s = "UNKNOWN"
    · subst hu; rfl
    · unfold executionTypeFor EXECUTION_TYPES
      simp [List.lookup,
        show (s == "SELECT") = false by simpa using h1,
        show (s == "INSERT") = false by simpa using h2,
        show (s == "DELETE") = false by simpa using h4,
        show (s == "UPDATE") = false by simpa using h3,
        show (s == "CREATE_DATABASE") = false by simpa using h6,
        show (s == "CREATE_TABLE") = false by simpa using h7,
        show (s == "CREATE_TRIGGER") = false by simpa using h8,
        show (s == "CREATE_FUNCTION") = false by simpa using h9,
        show (s == "DROP_DATABASE") = false by simpa using h10,
        show (s == "DROP_TABLE") = false by simpa using h11,
        show (s == "TRUNCATE") = false by simpa using h5,
        show (s == "UNKNOWN") = false by simpa using hu]

theorem c4_witness :
    ∀ st ∈ [({ start := some 0, stop := some 6, type := some "SELECT",
               executionType := some "LISTING", endStatement := some ";" } : Statement)],
      st.executionType = some (executionTypeFor st.type) :=
  c4_execution_type_table.1 [kwTok "SELECT" 0 5, semiTok 6] true "generic" 6
    { type := "QUERY", start := 0, stop := 6,
      body := [{ start := some 0, stop := some 6, type := some "SELECT",
                 executionType := some "LISTING", endStatement := some ";" }],
      tokens := [kwTok "SELECT" 0 5, semiTok 6] } rfl

lemma bodyInv_mono (inputEnd : Int) (body : List Statement) (lb lb2 : Int)
    (hle : lb ≤ lb2) (h : BodyInv inputEnd body lb) : BodyInv inputEnd body lb2 := by
  refine ⟨fun st hst => ?_, h.2⟩
  obtain ⟨hp, a, b, ha, hb, hab, hbl, hbi⟩ := h.1 st hst
  exact ⟨hp, a, b, ha, hb, hab, le_trans hbl hle, hbi⟩

lemma bodyInv_stop_le (inputEnd : Int) (body : List Statement) (lb : Int)
    (h : BodyInv inputEnd body lb) :
    ∀ st ∈ body, ∀ e, st.stop = some e → e ≤ lb := by
  intro st hst e he
  obtain ⟨_, a, b, ha, hb, hab, hbl, hbi⟩ := h.1 st hst
  rw [he] at hb
  cases hb
  exact hbl

lemma bodyInv_push (inputEnd : Int) (body : List Statement) (lb : Int)
    (stmt : Statement) (s2 e2 : Int)
    (hb : BodyInv inputEnd body lb)
    (hpe : PExec stmt)
    (hstart : stmt.start = some s2)
    (hstop : stmt.stop = some e2)
    (holds : ∀ st ∈ body, ∀ e, st.stop = some e → e < s2)
    (hlbe : lb ≤ e2)
    (hse : s2 ≤ e2) (hei : e2 ≤ inputEnd) :
    BodyInv inputEnd (body ++ [stmt]) e2 := by
  have hcross : ∀ st ∈ body, StmtLt st stmt := by
    intro st hst e a he ha
    rw [hstart] at ha
    cases ha
    exact holds st hst e he
  constructor
  · intro st hst
    rcases List.mem_append.mp hst with hold | hnew
    · obtain ⟨hpx, a, b, ha, hb2, hab, hbl, hbi⟩ := hb.1 st hold
      exact ⟨hpx, a, b, ha, hb2, hab, le_trans hbl hlbe, hbi⟩
    · rw [List.mem_singleton.mp hnew]
      exact ⟨hpe, s2, e2, hstart, hstop, hse, le_refl e2, hei⟩
  · refine List.pairwise_append.mpr ⟨hb.2, List.pairwise_singleton _ _, ?_⟩
    intro st hst st2 hst2
    rw [List.mem_singleton.mp hst2]
    exact hcross st hst

/-- Positional invariant along the whole scanning loop: the sealed
statements stay consistent, bounded and pairwise ordered, and the active
classifier's statement starts after every sealed statement. -/
lemma runTokens_inv (isStrict : Bool) (dialect : String) (inputEnd : Int) :
    ∀ (toks : List Token) (sp : Option ParserState) (body : List Statement) (lb : Int)
      (out : List Statement × Option ParserState),
      List.Pairwise TokLt toks →
      (∀ t ∈ toks, t.start ≤ t.stop ∧ t.stop ≤ inputEnd ∧ lb < t.start) →
      BodyInv inputEnd body lb →
      SpInv inputEnd sp body lb →
      runTokens isStrict dialect toks sp body = .ok out →
      BodyInv inputEnd out.1 inputEnd ∧ SpInv inputEnd out.2 out.1 inputEnd
  | [], sp, body, lb, out, hp, htk, hb, hs, hrun => by
      unfold runTokens at hrun
      cases hrun
      refine ⟨⟨fun st hst => ?_, hb.2⟩, ?_⟩
      · obtain ⟨hpx, a, b, ha, hb2, hab, hbl, hbi⟩ := hb.1 st hst
        exact ⟨hpx, a, b, ha, hb2, hab, hbi, hbi⟩
      · intro q hq
        obtain ⟨h1, h2, s, h3, h4, h5, h6⟩ := hs q hq
        exact ⟨h1, h2, s, h3, h5, h5, h6⟩
  | t :: rest, sp, body, lb, out, hp, htk, hb, hs, hrun => by
      obtain ⟨hts, hti, hlt⟩ := htk t (List.mem_cons_self t rest)
      have hrest : ∀ r ∈ rest, r.start ≤ r.stop ∧ r.stop ≤ inputEnd ∧ t.stop < r.start := by
        intro r hr
        obtain ⟨a1, a2, _⟩ := htk r (List.mem_cons_of_mem t hr)
        exact ⟨a1, a2, (List.pairwise_cons.mp hp).1 r hr⟩
      have hptail : List.Pairwise TokLt rest := (List.pairwise_cons.mp hp).2
      have hlbstop : lb ≤ t.stop := le_of_lt (lt_of_lt_of_le hlt hts)
      unfold runTokens at hrun
      cases hsp : sp with
      | some p =>
        rw [hsp] at hrun hs
        simp only [] at hrun
        obtain ⟨hsok, hpe, s, hstart, hslb, hsie, holds⟩ := hs p rfl
        cases ha : addToken p t with
        | error e => rw [ha] at hrun; simp at hrun
        | ok p2 =>
          rw [ha] at hrun
          simp only [] at hrun
          have hsteq := addToken_steps_eq p t p2 ha
          have hpe2 := addToken_pexec p t p2 hpe ha
          have hnews : ∃ s2, p2.statement.start = some s2 ∧ s2 ≤ t.stop ∧
              s2 ≤ inputEnd ∧ (∀ st ∈ body, ∀ e, st.stop = some e → e < s2) := by
            rcases addToken_start p t p2 hsok ha with h1 | h1
            · refine ⟨s, by rw [h1, hstart], le_trans hslb hlbstop, hsie, holds⟩
            · refine ⟨t.start, h1, hts, le_trans hts hti, ?_⟩
              intro st hst e he
              exact lt_of_le_of_lt
                (le_trans (bodyInv_stop_le inputEnd body lb hb st hst e he) (le_refl lb))
                hlt
          obtain ⟨s2, hs2start, hs2stop, hs2ie, hs2olds⟩ := hnews
          by_cases hend : p2.statement.endStatement.isSome
          · rw [if_pos hend] at hrun
            refine runTokens_inv isStrict dialect inputEnd rest none
              (body ++ [{ p2.statement with stop := some t.stop }]) t.stop out
              hptail hrest ?_ (fun q hq => nomatch hq) hrun
            exact bodyInv_push inputEnd body lb _ s2 t.stop hb
              (pexec_set_stop _ _ hpe2) hs2start rfl hs2olds hlbstop hs2stop hti
          · rw [if_neg hend] at hrun
            refine runTokens_inv isStrict dialect inputEnd rest (some p2) body t.stop out
              hptail hrest (bodyInv_mono inputEnd body lb t.stop hlbstop hb) ?_ hrun
            intro q hq
            cases hq
            refine ⟨by rw [hsteq]; exact hsok, hpe2, s2, hs2start, hs2stop, hs2ie, hs2olds⟩
      | none =>
        rw [hsp] at hrun hs
        by_cases hig : ignoreOutsideBlankTokens.contains t.type
        · simp only [hig, if_true] at hrun
          exact runTokens_inv isStrict dialect inputEnd rest none body t.stop out
            hptail hrest (bodyInv_mono inputEnd body lb t.stop hlbstop hb)
            (fun q hq => nomatch hq) hrun
        · simp only [hig, Bool.false_eq_true, if_false] at hrun
          cases hc : createStatementParserByToken t isStrict dialect with
          | error e => rw [hc] at hrun; simp [Except.map] at hrun
          | ok p0 =>
            rw [hc] at hrun
            simp only [Except.map] at hrun
            cases ha : addToken p0 t with
            | error e => rw [ha] at hrun; simp at hrun
            | ok p2 =>
              rw [ha] at hrun
              simp only [] at hrun
              obtain ⟨hsta, hpe2, hsokk⟩ := first_feed t isStrict dialect p0 p2 hc ha
              have holdlt : ∀ st ∈ body, ∀ e, st.stop = some e → e < t.start := by
                intro st hst e he
                exact lt_of_le_of_lt (bodyInv_stop_le inputEnd body lb hb st hst e he) hlt
              by_cases hend : p2.statement.endStatement.isSome
              · rw [if_pos hend] at hrun
                refine runTokens_inv isStrict dialect inputEnd rest none
                  (body ++ [{ p2.statement with stop := some t.stop }]) t.stop out
                  hptail hrest ?_ (fun q hq => nomatch hq) hrun
                exact bodyInv_push inputEnd body lb _ t.start t.stop hb
                  (pexec_set_stop _ _ hpe2) hsta rfl holdlt hlbstop hts hti
              · rw [if_neg hend] at hrun
                refine runTokens_inv isStrict dialect inputEnd rest (some p2) body t.stop out
                  hptail hrest (bodyInv_mono inputEnd body lb t.stop hlbstop hb) ?_ hrun
                intro q hq
                cases hq
                exact ⟨hsokk, hpe2, t.start, hsta, hts, le_trans hts hti, holdlt⟩

/-- Claim C8: for every result of the scanning loop on a stream of tokens
with the scanner's span discipline (each token spans `start ≤ end`,
successive tokens strictly advance, all within the input), the sealed
statements are pairwise non-overlapping — each statement's `end` lies
strictly before the next statement's `start` — and every statement has
both offsets with `start ≤ end`; in particular `body` is sorted by
`start`. -/
theorem c8_statements_sorted_nonoverlapping (toks : List Token) (isStrict : Bool)
    (dialect : String) (inputEnd : Int) (res : ParseResult)
    (h1 : List.Pairwise TokLt toks)
    (h2 : ∀ t ∈ toks, t.start ≤ t.stop ∧ t.stop ≤ inputEnd)
    (h : parseTokens toks isStrict dialect inputEnd = .ok res) :
    res.body.Pairwise StmtLt ∧
    ∀ st ∈ res.body, ∃ a b, st.start = some a ∧ st.stop = some b ∧ a ≤ b := by
  unfold parseTokens at h
  cases hr : runTokens isStrict dialect toks none [] with
  | error e => rw [hr] at h; simp at h
  | ok pair =>
    obtain ⟨body, sp⟩ := pair
    have hinv : BodyInv inputEnd body inputEnd ∧ SpInv inputEnd sp body inputEnd := by
      cases toks with
      | nil =>
        unfold runTokens at hr
        cases hr
        exact ⟨⟨by simp, List.Pairwise.nil⟩, fun q hq => nomatch hq⟩
      | cons t0 rest =>
        refine runTokens_inv isStrict dialect inputEnd (t0 :: rest) none [] (t0.start - 1)
          (body, sp) h1 ?_ ⟨by simp, List.Pairwise.nil⟩ (fun q hq => nomatch hq) hr
        intro t ht
        obtain ⟨a1, a2⟩ := h2 t ht
        rcases List.mem_cons.mp ht with hh | hh
        · subst hh
          exact ⟨a1, a2, by omega⟩
        · have h3 := (List.pairwise_cons.mp h1).1 t hh
          obtain ⟨b1, b2⟩ := h2 t0 (List.mem_cons_self t0 rest)
          refine ⟨a1, a2, ?_⟩
          unfold TokLt at h3
          omega
    rw [hr] at h
    simp only [] at h
    cases sp with
    | none =>
      cases h
      refine ⟨hinv.1.2, fun st hst => ?_⟩
      obtain ⟨_, a, b, ha, hb, hab, _, _⟩ := hinv.1.1 st hst
      exact ⟨a, b, ha, hb, hab⟩
    | some p =>
      simp only [] at h
      obtain ⟨hsok, hpe, s, hstart, hslb, hsie, holds⟩ := hinv.2 p rfl
      by_cases hend : p.statement.endStatement.isNone
      · rw [if_pos hend] at h
        cases h
        have hfinal := bodyInv_push inputEnd body inputEnd _ s inputEnd hinv.1
          (pexec_set_stop _ _ hpe) hstart rfl holds (le_refl inputEnd) hsie
          (le_refl inputEnd)
        refine ⟨hfinal.2, fun st hst => ?_⟩
        obtain ⟨_, a, b, ha, hb, hab, _, _⟩ := hfinal.1 st hst
        exact ⟨a, b, ha, hb, hab⟩
      · rw [if_neg hend] at h
        cases h
        refine ⟨hinv.1.2, fun st hst => ?_⟩
        obtain ⟨_, a, b, ha, hb, hab, _, _⟩ := hinv.1.1 st hst
        exact ⟨a, b, ha, hb, hab⟩

theorem c8_witness :
    ([({ start := some 0, stop := some 6, type := some "SELECT",
         executionType := some "LISTING", endStatement := some ";" } : Statement)].Pairwise
        StmtLt)
    ∧ ∀ st ∈ [({ start := some 0, stop := some 6, type := some "SELECT",
                 executionType := some "LISTING", endStatement := some ";" } : Statement)],
        ∃ a b, st.start = some a ∧ st.stop = some b ∧ a ≤ b :=
  c8_statements_sorted_nonoverlapping [kwTok "SELECT" 0 5, semiTok 6] true "generic" 6
    { type := "QUERY", start := 0, stop := 6,
      body := [{ start := some 0, stop := some 6, type := some "SELECT",
                 executionType := some "LISTING", endStatement := some ";" }],
      tokens := [kwTok "SELECT" 0 5, semiTok 6] }
    (by refine List.Pairwise.cons ?_ (List.pairwise_singleton _ _)
        intro b hb
        rw [List.mem_singleton.mp hb]
        show (5 : Int) < 6
        norm_num)
    (by intro t ht
        rcases List.mem_cons.mp ht with hh | hh
        · subst hh; exact ⟨by norm_num [kwTok], by norm_num [kwTok]⟩
        · rw [List.mem_singleton.mp hh]
          exact ⟨by norm_num [semiTok], by norm_num [semiTok]⟩)
    rfl

/-! ## Dialects outside the special lists behave like `generic` -/

lemma addTokenSteps_generic (p : ParserState) (t : Token) :
    addTokenSteps p t = (addTokenSteps { p with dialect := "generic" } t).map
      (fun q => { q with dialect := p.dialect }) := by
  unfold addTokenSteps
  have hrb : ∀ cs, hasRequiredBefore { p with dialect := "generic" } cs
      = hasRequiredBefore p cs := fun cs => rfl
  simp only [hrb]
  repeat' split
  all_goals simp [Except.map]

lemma addTokenDefiner_generic (p : ParserState) (t : Token) :
    addTokenDefiner p t = (addTokenDefiner { p with dialect := "generic" } t).map
      (fun q => { q with dialect := p.dialect }) := by
  unfold addTokenDefiner
  split
  · split
    · simp [Except.map]
    · split
      · simp [Except.map]
      · exact addTokenSteps_generic _ t
  · exact addTokenSteps_generic _ t

lemma addTokenRest2_generic (p : ParserState) (t : Token)
    (h2 : (p.dialect == "psql") = false)
    (h3 : dialectsWithOpenBlocks.contains p.dialect = false)
    (h4 : (p.dialect == "mysql") = false) :
    addTokenRest2 p t = (addTokenRest2 { p with dialect := "generic" } t).map
      (fun q => { q with dialect := p.dialect }) := by
  unfold addTokenRest2
  simp only [h2, h3, h4,
    show ("generic" == "psql") = false from rfl,
    show dialectsWithOpenBlocks.contains "generic" = false from rfl,
    show ("generic" == "mysql") = false from rfl,
    Bool.false_and, Bool.and_false, if_false]
  split
  · simp [Except.map]
  · split
    · simp [Except.map]
    · split
      · simp [Except.map]
      · exact addTokenDefiner_generic p t

lemma addTokenRest_generic (p : ParserState) (t : Token)
    (h1 : dialectsWithEnds.contains p.dialect = false)
    (h2 : (p.dialect == "psql") = false)
    (h3 : dialectsWithOpenBlocks.contains p.dialect = false)
    (h4 : (p.dialect == "mysql") = false) :
    addTokenRest p t = (addTokenRest { p with dialect := "generic" } t).map
      (fun q => { q with dialect := p.dialect }) := by
  unfold addTokenRest
  simp only [h1,
    show dialectsWithEnds.contains "generic" = false from rfl,
    Bool.false_and, if_false]
  exact addTokenRest2_generic p t h2 h3 h4

lemma addToken_generic_map (p : ParserState) (t : Token)
    (h1 : dialectsWithEnds.contains p.dialect = false)
    (h2 : (p.dialect == "psql") = false)
    (h3 : dialectsWithOpenBlocks.contains p.dialect = false)
    (h4 : (p.dialect == "mysql") = false) :
    addToken p t = (addToken { p with dialect := "generic" } t).map
      (fun q => { q with dialect := p.dialect }) := by
  unfold addToken
  simp only [h1, h2, h4,
    show dialectsWithEnds.contains "generic" = false from rfl,
    show ("generic" == "psql") = false from rfl,
    Bool.false_and, Bool.and_false, Bool.not_false, Bool.and_true, if_false]
  split
  · simp [Except.map]
  · split
    · simp [Except.map]
    · exact addTokenRest_generic p t h1 h2 h3 h4

lemma sameButDialect_generic_eq (q q2 : ParserState) (h : SameButDialect q q2) :
    ({ q with dialect := "generic" } : ParserState) = { q2 with dialect := "generic" } := by
  obtain ⟨h1, h2, h3, h4, h5⟩ := h
  cases q
  cases q2
  simp_all

lemma dialectPlain_generic : DialectPlain "generic" := by
  refine ⟨rfl, rfl, rfl, rfl⟩

lemma addToken_plain_congr (q q2 : ParserState) (t : Token)
    (hq : DialectPlain q.dialect) (hq2 : DialectPlain q2.dialect)
    (hs : SameButDialect q q2) :
    (∀ e, addToken q t = .error e → addToken q2 t = .error e) ∧
    (∀ r, addToken q t = .ok r → ∃ r2, addToken q2 t = .ok r2 ∧ SameButDialect r r2 ∧
      r.dialect = q.dialect ∧ r2.dialect = q2.dialect) := by
  have e1 := addToken_generic_map q t hq.1 hq.2.1 hq.2.2.1 hq.2.2.2
  have e2 := addToken_generic_map q2 t hq2.1 hq2.2.1 hq2.2.2.1 hq2.2.2.2
  rw [sameButDialect_generic_eq q q2 hs] at e1
  cases hx : addToken { q2 with dialect := "generic" } t with
  | error e0 =>
    rw [hx] at e1 e2
    simp only [Except.map] at e1 e2
    constructor
    · intro e he
      rw [e1] at he
      cases he
      exact e2
    · intro r hr
      rw [e1] at hr
      cases hr
  | ok x =>
    rw [hx] at e1 e2
    simp only [Except.map] at e1 e2
    constructor
    · intro e he
      rw [e1] at he
      cases he
    · intro r hr
      rw [e1] at hr
      cases hr
      exact ⟨{ x with dialect := q2.dialect }, e2, ⟨rfl, rfl, rfl, rfl, rfl⟩, rfl, rfl⟩

lemma create_error_char (t : Token) (s : Bool) (d : String) (e : String)
    (h : createStatementParserByToken t s d = .error e) :
    e = "Invalid statement parser \"" ++ t.value ++ "\""
      ∧ ((!s && t.type == "unknown") = false)
      ∧ (t.type = "keyword" →
          ["SELECT", "CREATE", "DROP", "INSERT", "UPDATE", "DELETE",
            "TRUNCATE"].contains (jsUpper t.value) = false) := by
  unfold createStatementParserByToken fallbackCreate at h
  split at h
  · split at h
    all_goals first
      | (cases h)
      | (split at h
         · cases h
         · rename_i hv1 hv2 hv3 hv4 hv5 hv6 hv7 hnd
           cases h
           refine ⟨rfl, by simpa using hnd, fun _ => ?_⟩
           simp only [List.contains_eq_any_beq, List.any_cons, List.any_nil,
             Bool.or_eq_false_iff]
           refine ⟨?_, ?_, ?_, ?_, ?_, ?_, ?_, trivial⟩ <;>
             simp only [beq_eq_false_iff_ne, ne_eq]
           · exact fun hh => hv1 hh
           · exact fun hh => hv2 hh
           · exact fun hh => hv3 hh
           · exact fun hh => hv4 hh
           · exact fun hh => hv5 hh
           · exact fun hh => hv6 hh
           · exact fun hh => hv7 hh)
  · rename_i hkw
    split at h
    · cases h
    · rename_i hnd
      cases h
      refine ⟨rfl, by simpa using hnd, fun hh => ?_⟩
      exact absurd (by simp [hh] : (t.type == "keyword") = true) (by simpa using hkw)

lemma create_ok_not_error (t : Token) (s : Bool) (d d2 : String) (p0 : ParserState)
    (h : createStatementParserByToken t s d = .ok p0) :
    ∃ p2, createStatementParserByToken t s d2 = .ok p2 := by
  cases hg : createStatementParserByToken t s d2 with
  | ok p2 => exact ⟨p2, rfl⟩
  | error e2 =>
    obtain ⟨_, hnd2, hkw7⟩ := create_error_char t s d2 e2 hg
    exfalso
    rcases create_cases t s d p0 h with ⟨ht, hcase⟩ | ⟨hsf, ht, _⟩
    · have hc7 := hkw7 ht
      rcases hcase with ⟨hv, _⟩ | ⟨hv, _⟩ | ⟨hv, _⟩ | ⟨hv, _⟩ | ⟨hv, _⟩ | ⟨hv, _⟩ | ⟨hv, _⟩ <;>
        rw [hv] at hc7 <;> simp at hc7
    · rw [hsf, ht] at hnd2
      simp at hnd2

lemma create_plain (t : Token) (s : Bool) (d : String) (hd : DialectPlain d) :
    (∀ e, createStatementParserByToken t s d = .error e →
      createStatementParserByToken t s "generic" = .error e) ∧
    (∀ p0, createStatementParserByToken t s d = .ok p0 →
      ∃ p2, createStatementParserByToken t s "generic" = .ok p2 ∧
        SameButDialect p0 p2 ∧ DialectPlain p0.dialect ∧ DialectPlain p2.dialect) := by
  have hinit : initStatement d = initStatement "generic" := by
    unfold initStatement
    rw [hd.2.2.1]
    rfl
  constructor
  · intro e he
    obtain ⟨hee, _, _⟩ := create_error_char t s d e he
    subst hee
    cases hg : createStatementParserByToken t s "generic" with
    | error e2 =>
      obtain ⟨hee2, _, _⟩ := create_error_char t s "generic" e2 hg
      rw [hee2]
    | ok p2 =>
      obtain ⟨p3, hp3⟩ := create_ok_not_error t s "generic" d p2 hg
      rw [hp3] at he
      cases he
  · intro p0 hp0
    rcases create_cases t s d p0 hp0 with ⟨ht, hcase⟩ | ⟨hsf, ht, he⟩
    · rcases hcase with ⟨hv, he⟩ | ⟨hv, he⟩ | ⟨hv, he⟩ | ⟨hv, he⟩ | ⟨hv, he⟩ | ⟨hv, he⟩ | ⟨hv, he⟩
      · subst he
        refine ⟨initParser selectSteps s "generic", ?_, ⟨rfl, rfl, rfl, rfl, rfl⟩,
          dialectPlain_generic, dialectPlain_generic⟩
        unfold createStatementParserByToken
        simp [ht, hv]
      · subst he
        refine ⟨initParser createSteps s "generic", ?_, ?_, hd, dialectPlain_generic⟩
        · unfold createStatementParserByToken
          simp [ht, hv]
        · exact ⟨by simp [initParser, hinit], rfl, rfl, rfl, rfl⟩
      · subst he
        refine ⟨initParser dropSteps s "generic", ?_, ⟨rfl, rfl, rfl, rfl, rfl⟩,
          dialectPlain_generic, dialectPlain_generic⟩
        unfold createStatementParserByToken
        simp [ht, hv]
      · subst he
        refine ⟨initParser insertSteps s "generic", ?_, ⟨rfl, rfl, rfl, rfl, rfl⟩,
          dialectPlain_generic, dialectPlain_generic⟩
        unfold createStatementParserByToken
        simp [ht, hv]
      · subst he
        refine ⟨initParser updateSteps s "generic", ?_, ⟨rfl, rfl, rfl, rfl, rfl⟩,
          dialectPlain_generic, dialectPlain_generic⟩
        unfold createStatementParserByToken
        simp [ht, hv]
      · subst he
        refine ⟨initParser deleteSteps s "generic", ?_, ⟨rfl, rfl, rfl, rfl, rfl⟩,
          dialectPlain_generic, dialectPlain_generic⟩
        unfold createStatementParserByToken
        simp [ht, hv]
      · subst he
        refine ⟨initParser truncateSteps s "generic", ?_, ⟨rfl, rfl, rfl, rfl, rfl⟩,
          dialectPlain_generic, dialectPlain_generic⟩
        unfold createStatementParserByToken
        simp [ht, hv]
    · subst hsf
      subst he
      refine ⟨initParser unknownSteps false "generic", ?_, ⟨rfl, rfl, rfl, rfl, rfl⟩,
        dialectPlain_generic, dialectPlain_generic⟩
      unfold createStatementParserByToken fallbackCreate
      rw [if_neg (by simp [ht]), if_pos (by simp [ht])]

lemma feed_plain (q q2 : ParserState) (t : Token)
    (hq : DialectPlain q.dialect) (hq2 : DialectPlain q2.dialect)
    (hs : SameButDialect q q2) :
    (∃ e, addToken q t = .error e ∧ addToken q2 t = .error e) ∨
    (∃ r r2, addToken q t = .ok r ∧ addToken q2 t = .ok r2 ∧ SameButDialect r r2 ∧
      DialectPlain r.dialect ∧ DialectPlain r2.dialect) := by
  obtain ⟨cerr, cok⟩ := addToken_plain_congr q q2 t hq hq2 hs
  cases ha : addToken q t with
  | error e => exact .inl ⟨e, rfl, cerr e ha⟩
  | ok r =>
    obtain ⟨r2, hr2, hsr, hdr, hdr2⟩ := cok r ha
    exact .inr ⟨r, r2, rfl, hr2, hsr, hdr ▸ hq, hdr2 ▸ hq2⟩

lemma runTokens_plain (isStrict : Bool) (d : String) (hd : DialectPlain d) :
    ∀ (toks : List Token) (sp sp2 : Option ParserState) (body : List Statement),
      ((sp = none ∧ sp2 = none) ∨
        ∃ q q2, sp = some q ∧ sp2 = some q2 ∧ SameButDialect q q2 ∧
          DialectPlain q.dialect ∧ DialectPlain q2.dialect) →
      stripOut (runTokens isStrict d toks sp body) =
        stripOut (runTokens isStrict "generic" toks sp2 body)
  | [], sp, sp2, body, hrel => by
      unfold runTokens
      rcases hrel with ⟨h1, h2⟩ | ⟨q, q2, h1, h2, hsq, _, _⟩
      · subst h1; subst h2; rfl
      · subst h1; subst h2
        simp [stripOut, hsq.1]
  | t :: rest, sp, sp2, body, hrel => by
      rcases hrel with ⟨h1, h2⟩ | ⟨q, q2, h1, h2, hsq, hdq, hdq2⟩
      · subst h1; subst h2
        unfold runTokens
        by_cases hig : ignoreOutsideBlankTokens.contains t.type
        · simp only [hig, if_true]
          exact runTokens_plain isStrict d hd rest none none body (.inl ⟨rfl, rfl⟩)
        · simp only [hig, Bool.false_eq_true, if_false]
          obtain ⟨cerr, cok⟩ := create_plain t isStrict d hd
          cases hc : createStatementParserByToken t isStrict d with
          | error e =>
            rw [cerr e hc]
            rfl
          | ok p0 =>
            obtain ⟨p2, hp2, hsp, hdp0, hdp2⟩ := cok p0 hc
            rw [hp2]
            simp only [Except.map]
            rcases feed_plain p0 p2 t hdp0 hdp2 hsp with
              ⟨e, he, he2⟩ | ⟨r, r2, hr, hr2, hsr, hpr, hpr2⟩
            · rw [he, he2]
            · rw [hr, hr2]
              simp only []
              rw [hsr.1]
              by_cases hend : r2.statement.endStatement.isSome
              · rw [if_pos hend, if_pos hend]
                exact runTokens_plain isStrict d hd rest none none _ (.inl ⟨rfl, rfl⟩)
              · rw [if_neg hend, if_neg hend]
                exact runTokens_plain isStrict d hd rest (some r) (some r2) body
                  (.inr ⟨r, r2, rfl, rfl, hsr, hpr, hpr2⟩)
      · subst h1; subst h2
        unfold runTokens
        simp only []
        rcases feed_plain q q2 t hdq hdq2 hsq with
          ⟨e, he, he2⟩ | ⟨r, r2, hr, hr2, hsr, hpr, hpr2⟩
        · rw [he, he2]
        · rw [hr, hr2]
          simp only []
          rw [hsr.1]
          by_cases hend : r2.statement.endStatement.isSome
          · rw [if_pos hend, if_pos hend]
            exact runTokens_plain isStrict d hd rest none none _ (.inl ⟨rfl, rfl⟩)
          · rw [if_neg hend, if_neg hend]
            exact runTokens_plain isStrict d hd rest (some r) (some r2) body
              (.inr ⟨r, r2, rfl, rfl, hsr, hpr, hpr2⟩)

/-- Claim C6 (amended): `parse` performs no dialect validation.  A call with
a dialect outside the recognized set (anything other than sqlite, mssql,
psql, mysql; e.g. "oracle") is not rejected: on every token stream, strict
flag and input end it returns exactly the result of the generic dialect. -/
theorem c6_unrecognized_dialect_behaves_generic
    (toks : List Token) (isStrict : Bool) (d : String) (inputEnd : Int)
    (h1 : d ≠ "sqlite") (h2 : d ≠ "mssql") (h3 : d ≠ "psql") (h4 : d ≠ "mysql") :
    parseTokens toks isStrict d inputEnd =
      parseTokens toks isStrict "generic" inputEnd := by
  have hd : DialectPlain d := by
    refine ⟨?_, ?_, ?_, ?_⟩
    · simp [dialectsWithEnds, h1, h2, h3]
    · simp [h3]
    · simp [dialectsWithOpenBlocks, h3]
    · simp [h4]
  have hstrip := runTokens_plain isStrict d hd toks none none [] (.inl ⟨rfl, rfl⟩)
  unfold parseTokens
  cases hr : runTokens isStrict d toks none [] with
  | error e =>
    rw [hr] at hstrip
    cases hg : runTokens isStrict "generic" toks none [] with
    | error e2 =>
      rw [hg] at hstrip
      simp only [stripOut] at hstrip
      cases hstrip
      rfl
    | ok out2 =>
      rw [hg] at hstrip
      simp [stripOut] at hstrip
  | ok out =>
    rw [hr] at hstrip
    cases hg : runTokens isStrict "generic" toks none [] with
    | error e2 =>
      rw [hg] at hstrip
      simp [stripOut] at hstrip
    | ok out2 =>
      rw [hg] at hstrip
      obtain ⟨body, sp⟩ := out
      obtain ⟨body2, sp2⟩ := out2
      simp only [stripOut, Except.ok.injEq, Prod.mk.injEq] at hstrip
      obtain ⟨hb, hsp⟩ := hstrip
      subst hb
      cases hsp1 : sp with
      | none =>
        rw [hsp1] at hsp
        cases hsp2 : sp2 with
        | none => rfl
        | some q2 =>
          rw [hsp2] at hsp
          simp at hsp
      | some q =>
        rw [hsp1] at hsp
        cases hsp2 : sp2 with
        | none =>
          rw [hsp2] at hsp
          simp at hsp
        | some q2 =>
          rw [hsp2] at hsp
          simp only [Option.map] at hsp
          have hst : q.statement = q2.statement := by simpa using hsp
          simp [hst]

/-- Witness for claim C6: the unrecognized dialect "oracle" is accepted and
parses the stream of SELECT 1; exactly as the generic dialect. -/
theorem c6_witness :
    parseTokens [kwTok "SELECT" 0 5, semiTok 6] true "oracle" 6 =
      parseTokens [kwTok "SELECT" 0 5, semiTok 6] true "generic" 6 :=
  c6_unrecognized_dialect_behaves_generic [kwTok "SELECT" 0 5, semiTok 6] true "oracle" 6
    (by decide) (by decide) (by decide) (by decide)
